import Mathlib

/-!
Verification of the markdown task parser / state-writer pair of
obsidian-task-automation (`src/obs_tasks/parser.py`, `writer.py`,
`executor.py`, `models.py`).

A document line is modelled as a `List Char` (Python `str.splitlines()`
yields strings free of line-break characters); a document is a
`List Line`.  Each Python regular expression is translated into a
structural matching function whose behaviour (including the exact
captured group under greedy/lazy semantics) is derived from the pattern.
-/

namespace ObsTasks

/-- A single line of a markdown document. -/
abbrev Line := List Char

/-- Convenience: the character list of a string literal. -/
def lineOf (s : String) : Line := s.toList

/-- Model of the `\s` character class of the Python patterns, restricted
to the whitespace characters that can occur inside one line of these
documents (space and horizontal tab; line-break characters cannot occur
inside a line). -/
def isSpaceChar (c : Char) : Bool := c == ' ' || c == '\t'

/-- Model of `str.lstrip()`. -/
def ltrim (l : Line) : Line := l.dropWhile isSpaceChar

/-- Model of `str.rstrip()`. -/
def rtrim (l : Line) : Line := (l.reverse.dropWhile isSpaceChar).reverse

/-- Model of `str.strip()`. -/
def trim (l : Line) : Line := rtrim (ltrim l)

/-- Model of `str.lower()` for the ASCII text this system compares. -/
def toLowerL (l : Line) : Line :=
  l.map fun c => if 'A' ≤ c && c ≤ 'Z' then Char.ofNat (c.toNat + 32) else c

/-- `dropPrefixL p l = some rest` exactly when `l = p ++ rest`. -/
def dropPrefixL : Line → Line → Option Line
  | [], l => some l
  | _ :: _, [] => none
  | p :: ps, c :: cs => if p == c then dropPrefixL ps cs else none

/-- Model of `str.startswith`. -/
def startsWithL (p l : Line) : Bool := (dropPrefixL p l).isSome

/-- Model of `HEADING_RE = ^(#{1,6})\s+(.+)$` combined with the
`.strip()` the parser applies to the captured title: `some (level,
title)` when the line is a heading.  The pattern matches exactly when
1–6 leading `#` are followed by a whitespace character and at least one
further character; the stripped capture of `\s+(.+)$` is the stripped
remainder of the line. -/
def matchHeading (l : Line) : Option (Nat × Line) :=
  let n := (l.takeWhile (· == '#')).length
  let rest := l.drop n
  if 1 ≤ n && n ≤ 6 && 2 ≤ rest.length && rest.head?.any isSpaceChar then
    some (n, trim rest)
  else none

/-- The group captured by a trailing `\s*(.+?)\s*$` from the text `r`
that follows the field label: the pattern fails on empty `r` (the lazy
group needs one character); when `r` has a non-whitespace character the
greedy leading `\s*` and trailing `\s*$` leave exactly `trim r` to the
group; when `r` is non-empty but all whitespace, backtracking leaves the
last whitespace character to the group. -/
def fieldValue (r : Line) : Option Line :=
  if r = [] then none
  else if trim r ≠ [] then some (trim r)
  else some (r.drop (r.length - 1))

/-- Model of a field pattern `^-\s*<label>:\s*(.+?)\s*$` (the shared
shape of `SCHEDULE_RE`, `STATUS_RE`, …, `COMMAND_NO_BACKTICK_RE`),
returning the captured value. -/
def matchField (label : Line) (l : Line) : Option Line :=
  match l with
  | [] => none
  | c :: rest =>
    if c = '-' then
      match dropPrefixL (label ++ [':']) (ltrim rest) with
      | some r => fieldValue r
      | none => none
    else none

/-- The backtick character (U+0060). -/
def backtickChar : Char := Char.ofNat 96

/-- Model of `COMMAND_RE`, the backtick form
`^-\s*Command:\s*` ︱backtick︱ `(.+?)` ︱backtick︱ `\s*$`: after the label
and the greedy `\s*` an opening backtick must follow; the closing
backtick matched by the lazy group is the unique backtick followed only
by whitespace, i.e. the last character of the right-stripped remainder;
the capture is everything between the two (it may itself contain
backticks and inner whitespace, and is not stripped). -/
def matchCommandBacktick (l : Line) : Option Line :=
  match l with
  | [] => none
  | c :: rest =>
    if c = '-' then
      match dropPrefixL (lineOf "Command" ++ [':']) (ltrim rest) with
      | some r =>
        match ltrim r with
        | b :: t =>
          if b == backtickChar then
            let t' := rtrim t
            if 2 ≤ t'.length && t'.getLast? == some backtickChar then
              some t'.dropLast
            else none
          else none
        | [] => none
      | none => none
    else none

/-! ## Data model (`models.py`) -/

/-- `TaskStatus` from `models.py`. -/
inductive TaskStatus
  | never_run
  | success
  | failed
  | running
deriving DecidableEq, Repr

/-- A calendar timestamp at second precision, the precision of the
`%Y-%m-%d %H:%M:%S` interchange format this system reads and writes. -/
structure DateTime where
  year : Nat
  month : Nat
  day : Nat
  hour : Nat
  minute : Nat
  second : Nat
deriving DecidableEq, Repr

def isLeapYear (y : Nat) : Bool := (y % 4 == 0 && y % 100 != 0) || y % 400 == 0

def daysInMonth (y m : Nat) : Nat :=
  if m = 2 then (if isLeapYear y then 29 else 28)
  else if m = 4 ∨ m = 6 ∨ m = 9 ∨ m = 11 then 30
  else 31

/-- Calendar validity, as enforced by the `datetime` constructor. -/
def DateTime.valid (d : DateTime) : Bool :=
  1 ≤ d.year && d.year ≤ 9999 && 1 ≤ d.month && d.month ≤ 12 &&
    1 ≤ d.day && d.day ≤ daysInMonth d.year d.month &&
    d.hour ≤ 23 && d.minute ≤ 59 && d.second ≤ 59

/-- `Task` from `models.py`.  Counters are integers (the parser default
is 0 but a file may carry any integer literal). -/
structure Task where
  id : Line
  title : Line
  command : Line
  schedule : Line
  status : TaskStatus := .never_run
  last_run : Option DateTime := none
  next_run : Option DateTime := none
  duration : Option ℚ := none
  result_summary : Option Line := none
  total_runs : Int := 0
  successful_runs : Int := 0
  failed_runs : Int := 0
  last_failure : Option DateTime := none
  file_path : Option Line := none
  heading_line : Nat := 0
deriving DecidableEq, Repr

/-- `ExecutionResult` from `models.py`.  The `duration` float is
modelled as a rational number of seconds. -/
structure ExecutionResult where
  task_id : Line
  success : Bool
  exit_code : Int
  stdout : Line
  stderr : Line
  started_at : DateTime
  finished_at : DateTime
  duration : ℚ
  error_message : Option Line := none
  timed_out : Bool := false
deriving DecidableEq, Repr

/-- The `ExecutionResult.summary` property: first 200 characters of the
error message (for failures), else stdout, else stderr, stripped;
empty string when all of those are empty. -/
def ExecutionResult.summary (r : ExecutionResult) : Line :=
  let text :=
    if !r.success && (match r.error_message with | some m => !m.isEmpty | none => false) then
      r.error_message.getD []
    else if !r.stdout.isEmpty then r.stdout
    else if !r.stderr.isEmpty then r.stderr
    else []
  if text.isEmpty then [] else trim (text.take 200)

/-- `slugify` from `models.py`: lowercase, strip, delete characters
outside `[a-z0-9\s-]`, collapse whitespace runs to one hyphen, strip
hyphens. -/
def slugChar (c : Char) : Bool :=
  ('a' ≤ c && c ≤ 'z') || ('0' ≤ c && c ≤ '9') || isSpaceChar c || c == '-'

/-- Replace each maximal whitespace run by a single hyphen (the
`re.sub(r"[\s]+", "-", …)` step); the flag records whether the previous
character was whitespace. -/
def collapseWsAux : Bool → Line → Line
  | _, [] => []
  | inWs, c :: r =>
    if isSpaceChar c then
      if inWs then collapseWsAux true r else '-' :: collapseWsAux true r
    else c :: collapseWsAux false r

def collapseWsToHyphen (l : Line) : Line := collapseWsAux false l

def stripHyphens (l : Line) : Line :=
  ((l.dropWhile (· == '-')).reverse.dropWhile (· == '-')).reverse

def slugify (title : Line) : Line :=
  stripHyphens (collapseWsToHyphen ((trim (toLowerL title)).filter slugChar))

/-! ## Secondary parsers (`parser.py`, lower half) -/

def isDigitChar (c : Char) : Bool := 48 ≤ c.toNat && c.toNat ≤ 57

def digitVal (c : Char) : Nat := c.toNat - 48

def digitChar (d : Nat) : Char := Char.ofNat (48 + d)

/-- Numeric value of a digit string (most significant first). -/
def digitsVal (l : Line) : Nat := l.foldl (fun a c => a * 10 + digitVal c) 0

/-- `_parse_status`: strip, remove the known emoji prefixes (stripping
again after each), lowercase, map synonyms; anything unrecognized and
`None` fall back to `NEVER_RUN`. -/
def parse_status (value : Option Line) : TaskStatus :=
  match value with
  | none => .never_run
  | some v =>
    let cleaned := ['✅', '❌', '🔄', '⏳'].foldl
      (fun acc e => trim (match dropPrefixL [e] acc with | some r => r | none => acc))
      (trim v)
    let lower := toLowerL cleaned
    if lower = lineOf "success" ∨ lower = lineOf "succeeded" ∨ lower = lineOf "ok" then
      .success
    else if lower = lineOf "failed" ∨ lower = lineOf "failure" ∨ lower = lineOf "error" then
      .failed
    else if lower = lineOf "running" ∨ lower = lineOf "in progress" ∨
        lower = lineOf "in_progress" then
      .running
    else
      .never_run

/-- Model of `dateutil.parser.parse`, specified on the one canonical
timestamp format `YYYY-MM-DD HH:MM:SS` this system ever writes; every
other input is mapped to `none`.  (The real library accepts further
formats; no claim below evaluates the parser outside the canonical
format.)  Calendar-invalid digit strings raise in the library and are
`none` here. -/
def dateutil_parse (l : Line) : Option DateTime :=
  match l with
  | [y1, y2, y3, y4, '-', m1, m2, '-', d1, d2, ' ', h1, h2, ':', n1, n2, ':', s1, s2] =>
    if [y1, y2, y3, y4, m1, m2, d1, d2, h1, h2, n1, n2, s1, s2].all isDigitChar then
      let dt : DateTime :=
        ⟨digitsVal [y1, y2, y3, y4], digitsVal [m1, m2], digitsVal [d1, d2],
          digitsVal [h1, h2], digitsVal [n1, n2], digitsVal [s1, s2]⟩
      if dt.valid then some dt else none
    else none
  | _ => none

/-- `_parse_datetime`: `None` and placeholder strings map to `None`,
otherwise the permissive parser is tried, failure mapping to `None`. -/
def parse_datetime (value : Option Line) : Option DateTime :=
  match value with
  | none => none
  | some v =>
    let c := trim v
    if c = lineOf "-" ∨ c = [] ∨ c = lineOf "Never" ∨ c = lineOf "never" ∨
        c = lineOf "N/A" ∨ c = lineOf "n/a" then none
    else dateutil_parse c

/-- Model of Python `float()` restricted to plain decimal literals:
optional sign, then digits with at most one decimal point and at least
one digit.  (The builtin also accepts exponents, underscores, and
`inf`/`nan`, none of which this system ever produces.) -/
def parseFloat (l : Line) : Option ℚ :=
  let (neg, body) :=
    match l with
    | '-' :: r => (true, r)
    | '+' :: r => (false, r)
    | _ => (false, l)
  let ip := body.takeWhile (· != '.')
  let value : Option ℚ :=
    match body.drop ip.length with
    | [] =>
      if ip ≠ [] ∧ ip.all isDigitChar then some (mkRat (digitsVal ip) 1) else none
    | '.' :: fp =>
      if fp.all (· != '.') ∧ ip ++ fp ≠ [] ∧ (ip ++ fp).all isDigitChar then
        some (mkRat (digitsVal ip * 10 ^ fp.length + digitsVal fp) (10 ^ fp.length))
      else none
    | _ => none
  value.map fun q => if neg then mkRat (-q.num) q.den else q

def rstripChar (ch : Char) (l : Line) : Line := (l.reverse.dropWhile (· == ch)).reverse

/-- `_parse_duration`: placeholders map to `None`; a trailing run of
`s` characters is stripped, then the remainder is parsed as a float,
failure mapping to `None`. -/
def parse_duration (value : Option Line) : Option ℚ :=
  match value with
  | none => none
  | some v =>
    let c := trim v
    if c = lineOf "-" ∨ c = [] ∨ c = lineOf "N/A" then none
    else parseFloat (trim (rstripChar 's' c))

/-- Model of Python `int()` on a stripped string: optional sign then a
non-empty digit string. -/
def parseIntL (l : Line) : Option Int :=
  let (neg, body) :=
    match l with
    | '-' :: r => (true, r)
    | '+' :: r => (false, r)
    | _ => (false, l)
  if body ≠ [] ∧ body.all isDigitChar then
    some (if neg then -(digitsVal body : Int) else (digitsVal body : Int))
  else none

/-- `_parse_int`: placeholders map to 0, commas are removed, parse
failure maps to 0. -/
def parse_int (value : Option Line) : Int :=
  match value with
  | none => 0
  | some v =>
    let c := trim v
    if c = lineOf "-" ∨ c = [] ∨ c = lineOf "N/A" then 0
    else
      match parseIntL (c.filter (· != ',')) with
      | some i => i
      | none => 0

/-! ## Field extraction (`_extract_fields`) -/

/-- The mutable intermediate record filled by `_extract_fields`
(`_RawBlock` in `parser.py`). -/
structure RawBlock where
  title : Line
  heading_level : Nat
  heading_line : Nat
  command : Option Line := none
  schedule : Option Line := none
  status : Option Line := none
  last_run : Option Line := none
  next_run : Option Line := none
  duration : Option Line := none
  result : Option Line := none
  total_runs : Option Line := none
  successful : Option Line := none
  failed : Option Line := none
  last_failure : Option Line := none
deriving DecidableEq, Repr

/-- One iteration of the `_extract_fields` loop: the patterns are tried
in source order and the first match assigns its field (`continue`); the
bare-form Command pattern is only tried while no Command has been
recorded, but every other assignment (including backtick Command)
overwrites unconditionally. -/
def extractStep (raw : RawBlock) (l : Line) : RawBlock :=
  match matchCommandBacktick l with
  | some v => { raw with command := some v }
  | none =>
  match (if raw.command = none then matchField (lineOf "Command") l else none) with
  | some v => { raw with command := some v }
  | none =>
  match matchField (lineOf "Schedule") l with
  | some v => { raw with schedule := some v }
  | none =>
  match matchField (lineOf "Status") l with
  | some v => { raw with status := some v }
  | none =>
  match matchField (lineOf "Last Run") l with
  | some v => { raw with last_run := some v }
  | none =>
  match matchField (lineOf "Next Run") l with
  | some v => { raw with next_run := some v }
  | none =>
  match matchField (lineOf "Duration") l with
  | some v => { raw with duration := some v }
  | none =>
  match matchField (lineOf "Result") l with
  | some v => { raw with result := some v }
  | none =>
  match matchField (lineOf "Total Runs") l with
  | some v => { raw with total_runs := some v }
  | none =>
  match matchField (lineOf "Successful") l with
  | some v => { raw with successful := some v }
  | none =>
  match matchField (lineOf "Failed") l with
  | some v => { raw with failed := some v }
  | none =>
  match matchField (lineOf "Last Failure") l with
  | some v => { raw with last_failure := some v }
  | none => raw

/-- `_extract_fields`: fold the per-line step over the block's lines. -/
def extract_fields (block_lines : List Line) (raw : RawBlock) : RawBlock :=
  block_lines.foldl extractStep raw

/-! ## Block locator (`_find_task_blocks`) and task assembly -/

/-- First pass of `_find_task_blocks`: every heading as
`(line index, level, stripped title)`, in document order. -/
def headingsOf (lines : List Line) : List (Nat × Nat × Line) :=
  lines.enum.filterMap fun p =>
    (matchHeading p.2).map fun q => (p.1, q.1, q.2)

/-- First pass of `_find_task_blocks`: the indices of all lines
matching either Command pattern. -/
def commandLinesOf (lines : List Line) : List Nat :=
  lines.enum.filterMap fun p =>
    if (matchCommandBacktick p.2).isSome || (matchField (lineOf "Command") p.2).isSome then
      some p.1
    else none

/-- The scan over `reversed(headings)` for the nearest heading strictly
above `cmd_line`: the last heading in document order whose index is
below `cmd_line`. -/
def nearestHeadingAbove (headings : List (Nat × Nat × Line)) (cmd_line : Nat) :
    Option (Nat × Nat × Line) :=
  (headings.filter fun h => h.1 < cmd_line).getLast?

/-- The scan over `reversed(headings)` for the parent of a generic
sub-heading: the last heading before `h_line` with strictly lower
level. -/
def parentHeadingAbove (headings : List (Nat × Nat × Line)) (h_line h_level : Nat) :
    Option (Nat × Nat × Line) :=
  (headings.filter fun h => h.1 < h_line ∧ h.2.1 < h_level).getLast?

/-- Block end: the first heading after `h_line` at the same or a
shallower level, or end of document. -/
def blockEndOf (headings : List (Nat × Nat × Line)) (docLen h_line h_level : Nat) : Nat :=
  match headings.find? fun h => h_line < h.1 ∧ h.2.1 ≤ h_level with
  | some h => h.1
  | none => docLen

/-- `_GENERIC_HEADINGS` from `parser.py`. -/
def genericHeadings : List Line :=
  [lineOf "task definition", lineOf "definition", lineOf "configuration", lineOf "config",
   lineOf "setup", lineOf "task config", lineOf "task configuration"]

/-- Python truthiness of an optional string. -/
def truthy : Option Line → Bool
  | none => false
  | some v => !v.isEmpty

/-- The body of the `for cmd_line in command_lines` loop of
`_find_task_blocks`: resolve the governing heading (walking past a
generic sub-heading to the lower-level parent when one exists), compute
the block range, extract the fields, and keep the block only when both
Command and Schedule are (truthily) present. -/
def blockForCommand (lines : List Line) (headings : List (Nat × Nat × Line))
    (cmd_line : Nat) : Option RawBlock :=
  match nearestHeadingAbove headings cmd_line with
  | none => none
  | some (h_line, h_level, h_title) =>
    let resolved :=
      if toLowerL (trim h_title) ∈ genericHeadings then
        match parentHeadingAbove headings h_line h_level with
        | some p => p
        | none => (h_line, h_level, h_title)
      else (h_line, h_level, h_title)
    match resolved with
    | (h_line, h_level, h_title) =>
      let block_end := blockEndOf headings lines.length h_line h_level
      let block_lines := (lines.take block_end).drop h_line
      let raw := extract_fields block_lines
        { title := h_title, heading_level := h_level, heading_line := h_line }
      if truthy raw.command && truthy raw.schedule then some raw else none

/-- `_find_task_blocks`: one candidate block per Command line, kept or
dropped by `blockForCommand`. -/
def find_task_blocks (lines : List Line) : List RawBlock :=
  let headings := headingsOf lines
  (commandLinesOf lines).filterMap (blockForCommand lines headings)

/-- `_block_to_task`. -/
def block_to_task (block : RawBlock) (file_path : Option Line) : Option Task :=
  if truthy block.command && truthy block.schedule then
    some
      { id := slugify block.title
        title := block.title
        command := block.command.getD []
        schedule := block.schedule.getD []
        status := parse_status block.status
        last_run := parse_datetime block.last_run
        next_run := parse_datetime block.next_run
        duration := parse_duration block.duration
        result_summary :=
          match block.result with
          | some r => if !r.isEmpty && r != lineOf "-" then some r else none
          | none => none
        total_runs := parse_int block.total_runs
        successful_runs := parse_int block.successful
        failed_runs := parse_int block.failed
        last_failure := parse_datetime block.last_failure
        file_path := file_path
        heading_line := block.heading_line }
  else none

/-- `parse_file` after the file has been read and split into lines. -/
def parse_lines (lines : List Line) (file_path : Option Line) : List Task :=
  (find_task_blocks lines).filterMap (block_to_task · file_path)

/-- Model of `str.splitlines()` for content whose only line-break
character is `'\n'` (the only one this system writes). -/
def splitOnNl (content : List Char) : List Line :=
  content.foldr
    (fun c acc =>
      if c = '\n' then [] :: acc
      else
        match acc with
        | h :: t => (c :: h) :: t
        | [] => [[c]])
    [[]]

def splitlinesL (content : List Char) : List Line :=
  if content = [] then []
  else if content.getLast? = some '\n' then splitOnNl content.dropLast
  else splitOnNl content

/-- Decimal digit string of a natural number, structurally recursive on
a fuel bound so that it reduces inside the kernel. -/
def natLineAux : Nat → Nat → Line
  | 0, _ => []
  | fuel + 1, n =>
    if n < 10 then [digitChar n]
    else natLineAux fuel (n / 10) ++ [digitChar (n % 10)]

/-- Decimal digit string of a natural number, no padding (`str(n)`). -/
def natLine (n : Nat) : Line := natLineAux (n + 1) n

/-- `str(i)` for an integer. -/
def intLine (i : Int) : Line :=
  if i < 0 then '-' :: natLine (-i).toNat else natLine i.toNat

/-- Two-digit zero-padded field (`%m`, `%d`, `%H`, `%M`, `%S`). -/
def pad2 (n : Nat) : Line := [digitChar (n / 10 % 10), digitChar (n % 10)]

/-- Four-digit zero-padded year (`%Y`), modelled for the years 0–9999
that a valid `datetime` rendered by this system can carry. -/
def pad4 (n : Nat) : Line :=
  [digitChar (n / 1000 % 10), digitChar (n / 100 % 10), digitChar (n / 10 % 10),
   digitChar (n % 10)]

/-- `dt.strftime("%Y-%m-%d %H:%M:%S")`. -/
def formatDT (d : DateTime) : Line :=
  pad4 d.year ++ '-' :: pad2 d.month ++ '-' :: pad2 d.day ++
    ' ' :: pad2 d.hour ++ ':' :: pad2 d.minute ++ ':' :: pad2 d.second

/-- `_format_datetime`. -/
def format_datetime (d : Option DateTime) : Line :=
  match d with
  | none => lineOf "-"
  | some dt => formatDT dt

/-- `_STATUS_EMOJI` table / `_format_status`. -/
def format_status : TaskStatus → Line
  | .success => lineOf "✅ Success"
  | .failed => lineOf "❌ Failed"
  | .running => lineOf "🔄 Running"
  | .never_run => lineOf "Never run"

/-- Round half to even at the integer, of the rational `num/den`
(`den > 0`), computed on integers. -/
def rheInt (num : Int) (den : Int) : Int :=
  let fl := num.fdiv den
  let r := num - fl * den
  if 2 * r < den then fl
  else if den < 2 * r then fl + 1
  else if 2 ∣ fl then fl else fl + 1

/-- Model of `f"{seconds:.1f}"`: the decimal expansion of the value
rounded (half to even) to one fractional digit.  (CPython rounds the
binary double; on the exact decimal values this system manipulates the
two agree.) -/
def fixed1 (q : ℚ) : Line :=
  let m := rheInt (10 * q.num) q.den
  if m < 0 then '-' :: natLine ((-m).toNat / 10) ++ '.' :: [digitChar ((-m).toNat % 10)]
  else natLine (m.toNat / 10) ++ '.' :: [digitChar (m.toNat % 10)]

/-- `_format_duration`. -/
def format_duration (seconds : Option ℚ) : Line :=
  match seconds with
  | none => lineOf "-"
  | some q => fixed1 q ++ ['s']

/-- `_format_result`: `None`/empty becomes `-`; otherwise newlines are
flattened to spaces, the text stripped and truncated to 200 chars. -/
def format_result (summary : Option Line) : Line :=
  match summary with
  | none => lineOf "-"
  | some s =>
    if s.isEmpty then lineOf "-"
    else (trim (s.map fun c => if c = '\n' then ' ' else c)).take 200

/-- `build_current_state_lines`. -/
def build_current_state_lines (status : TaskStatus) (last_run next_run : Option DateTime)
    (duration : Option ℚ) (result_summary : Option Line) : List Line :=
  [lineOf "#### Current State",
   lineOf "- Status: " ++ format_status status,
   lineOf "- Last Run: " ++ format_datetime last_run,
   lineOf "- Next Run: " ++ format_datetime next_run,
   lineOf "- Duration: " ++ format_duration duration,
   lineOf "- Result: " ++ format_result result_summary]

/-- `build_statistics_lines`. -/
def build_statistics_lines (total_runs successful_runs failed_runs : Int)
    (last_failure : Option DateTime) : List Line :=
  [lineOf "#### Statistics",
   lineOf "- Total Runs: " ++ intLine total_runs,
   lineOf "- Successful: " ++ intLine successful_runs,
   lineOf "- Failed: " ++ intLine failed_runs,
   lineOf "- Last Failure: " ++ format_datetime last_failure]

def MAX_HISTORY_ROWS : Nat := 20

def HISTORY_HEADER : List Line :=
  [lineOf "#### Run History",
   lineOf "| Time | Status | Duration | Report |",
   lineOf "|------|--------|----------|--------|"]

/-- The per-line body of the `_parse_history_rows` loop, applied to the
raw line: skip blanks, `#…` headings, the `|---` separator and the
`| Time` header row; keep the stripped `|`-rows. -/
def historyRowFilter (l : Line) : Option Line :=
  let s := trim l
  if s.isEmpty || startsWithL (lineOf "#") s || startsWithL (lineOf "|---") s then none
  else if startsWithL (lineOf "| Time") s then none
  else if startsWithL (lineOf "|") s then some s
  else none

/-- `_parse_history_rows` on the range `[start, end)`. -/
def parse_history_rows (lines : List Line) (range : Nat × Nat) : List Line :=
  ((lines.take range.2).drop range.1).filterMap historyRowFilter

/-- The `new_row` of `build_run_history_lines`. -/
def history_row (result : ExecutionResult) (report_name : Option Line) : Line :=
  lineOf "| " ++ formatDT result.started_at ++ lineOf " | " ++
    (if result.success then ['✅'] else ['❌']) ++ lineOf " | " ++
    format_duration (some result.duration) ++ lineOf " | " ++
    (match report_name with
     | some n => lineOf "[[" ++ n ++ lineOf "]]"
     | none => lineOf "-") ++ lineOf " |"

/-- `build_run_history_lines`: header, then the new row prepended to
the existing rows, truncated to `MAX_HISTORY_ROWS`. -/
def build_run_history_lines (existing_rows : List Line) (result : ExecutionResult)
    (report_name : Option Line) : List Line :=
  HISTORY_HEADER ++ (history_row result report_name :: existing_rows).take MAX_HISTORY_ROWS

/-! ## Section patcher (`_find_section_range`, `_replace_or_insert_section`) -/

/-- The loop of `_find_section_range`, walking the slice
`lines[search_start:end)` with `i` the absolute index of the current
line and `st` the `(start_idx, section_level)` state.  A heading whose
lowercased title equals the target (while none is recorded) records the
section start; once recorded, a heading at the same or shallower level,
a `---` rule, or a `**Detailed` line ends the section; loop exhaustion
ends it at `end`. -/
def findSectionAux (target : Line) : List Line → Nat → Option (Nat × Nat) →
    Option (Nat × Nat)
  | [], i, st => st.map fun s => (s.1, i)
  | l :: rest, i, st =>
    match matchHeading l, st with
    | some (lvl, t), none =>
      if toLowerL t = toLowerL target then findSectionAux target rest (i + 1) (some (i, lvl))
      else findSectionAux target rest (i + 1) none
    | some (lvl, _), some (s, slvl) =>
      if lvl ≤ slvl then some (s, i)
      else
        -- the two separator checks cannot fire on a heading line
        findSectionAux target rest (i + 1) st
    | none, none => findSectionAux target rest (i + 1) none
    | none, some (s, _) =>
      if trim l = lineOf "---" then some (s, i)
      else if startsWithL (lineOf "**Detailed") (trim l) then some (s, i)
      else findSectionAux target rest (i + 1) st

/-- `_find_section_range`. -/
def find_section_range (lines : List Line) (section_title : Line) (search_start : Nat)
    (search_end : Option Nat) : Option (Nat × Nat) :=
  let e := search_end.getD lines.length
  findSectionAux section_title ((lines.take e).drop search_start) search_start none

/-- `_replace_or_insert_section`: replace the found extent wholesale by
the new lines plus a blank line, or insert them before `block_end`
(with a preceding blank unless the previous line is already blank). -/
def replace_or_insert_section (lines : List Line) (section_title : Line)
    (new_section_lines : List Line) (block_start block_end : Nat) : List Line :=
  match find_section_range lines section_title block_start (some block_end) with
  | some (s, e) => lines.take s ++ new_section_lines ++ [[]] ++ lines.drop e
  | none =>
    let pfx : List Line :=
      if 0 < block_end ∧ trim (lines.getD (block_end - 1) []) ≠ [] then [[]] else []
    lines.take block_end ++ pfx ++ new_section_lines ++ [[]] ++ lines.drop block_end

/-! ## `update_task_state` -/

/-- The pure line-rewriting core of `update_task_state`: the task block
is the whole file (`_find_task_block_range`), and the three managed
sections are patched in order, the block bounds being recomputed (as
the new document length) after each patch.  `report_name` models
`report_path.stem`. -/
def update_task_state_lines (lines : List Line) (task : Task) (result : ExecutionResult)
    (next_run : Option DateTime) (report_name : Option Line) : List Line :=
  let status : TaskStatus := if result.success then .success else .failed
  let state_lines := build_current_state_lines status (some result.started_at) next_run
    (some result.duration) (some result.summary)
  let stats_lines := build_statistics_lines (task.total_runs + 1)
    (task.successful_runs + if result.success then 1 else 0)
    (task.failed_runs + if result.success then 0 else 1)
    (if result.success then task.last_failure else some result.started_at)
  let l1 := replace_or_insert_section lines (lineOf "Current State") state_lines 0 lines.length
  let l2 := replace_or_insert_section l1 (lineOf "Statistics") stats_lines 0 l1.length
  let history_range := find_section_range l2 (lineOf "Run History") 0 (some l2.length)
  let existing_rows :=
    match history_range with
    | some r => parse_history_rows l2 r
    | none => []
  let history_lines := build_run_history_lines existing_rows result report_name
  replace_or_insert_section l2 (lineOf "Run History") history_lines 0 l2.length

/-- `"\n".join(lines)`. -/
def joinLines (lines : List Line) : List Char := List.intercalate ['\n'] lines

/-- The final content fix-up of `update_task_state`: ensure a trailing
newline. -/
def ensureTrailingNl (c : List Char) : List Char :=
  if c.getLast? = some '\n' then c else c ++ ['\n']

/-- `update_task_state` at the content level: split, patch, join. -/
def update_task_state_content (content : List Char) (task : Task)
    (result : ExecutionResult) (next_run : Option DateTime) (report_name : Option Line) :
    List Char :=
  ensureTrailingNl
    (joinLines (update_task_state_lines (splitlinesL content) task result next_run report_name))

/-- A flat in-memory file system: association list from path to
content. -/
abbrev FileSystem := List (Line × List Char)

def fsRead (fs : FileSystem) (p : Line) : Option (List Char) :=
  (fs.find? fun e => e.1 == p).map (·.2)

/-- `_atomic_write` observed at the file-system level: the destination
ends up holding exactly the new content (overwriting or creating). -/
def fsWrite (fs : FileSystem) (p : Line) (c : List Char) : FileSystem :=
  if (fs.find? fun e => e.1 == p).isSome then
    fs.map fun e => if e.1 == p then (p, c) else e
  else fs ++ [(p, c)]

/-- `update_task_state` including its two guard clauses: a task with no
`file_path`, or whose file does not exist, only logs and leaves the
file system untouched. -/
def update_task_state (fs : FileSystem) (task : Task) (result : ExecutionResult)
    (next_run : Option DateTime) (report_name : Option Line) : FileSystem :=
  match task.file_path with
  | none => fs
  | some p =>
    match fsRead fs p with
    | none => fs
    | some content =>
      fsWrite fs p (update_task_state_content content task result next_run report_name)

/-! ## Executor (`executor.py`) -/

/-- What the operating system did with the spawned shell command: it
completed with an exit code and captured output, it exceeded the
timeout (`subprocess.TimeoutExpired`), or the launch machinery raised
(`except Exception`). -/
inductive SubprocessOutcome
  | completed (returncode : Int) (stdout stderr : Line)
  | timedOut
  | raised (msg : Line)
deriving DecidableEq, Repr

/-- Model of `shlex.quote`: safe strings pass through; anything else is
wrapped in single quotes with embedded single quotes escaped. -/
def shlexSafeChar (c : Char) : Bool :=
  ('a' ≤ c && c ≤ 'z') || ('A' ≤ c && c ≤ 'Z') || isDigitChar c || c == '_' ||
    c == '@' || c == '%' || c == '+' || c == '=' || c == ':' || c == ',' || c == '.' ||
    c == '/' || c == '-'

def shlexQuote (s : Line) : Line :=
  if s.isEmpty then lineOf "''"
  else if s.all shlexSafeChar then s
  else
    '\'' :: (s.flatMap fun c => if c = '\'' then lineOf "'\"'\"'" else [c]) ++ ['\'']

/-- Model of `json.dumps` on a `dict[str, str]` of printable ASCII
strings (escaping backslash and double quote; further escapes are not
exercised by anything below). -/
def jsonEscape (s : Line) : Line :=
  s.flatMap fun c => if c = '\\' ∨ c = '"' then ['\\', c] else [c]

def jsonDumps (params : List (Line × Line)) : Line :=
  ['\x7b'] ++
    List.intercalate (lineOf ", ")
      (params.map fun kv => '"' :: jsonEscape kv.1 ++ lineOf "\": \"" ++ jsonEscape kv.2 ++ ['"'])
    ++ ['\x7d']

/-- `{{params}}` as a character list. -/
def paramsToken : Line := '\x7b' :: '\x7b' :: lineOf "params" ++ ['\x7d', '\x7d']

/-- Left-to-right, non-overlapping replacement of a non-empty pattern
(`str.replace`), structurally recursive on a fuel bound. -/
def replaceAux (pat rep : Line) : Nat → Line → Line
  | 0, l => l
  | fuel + 1, l =>
    match l with
    | [] => []
    | c :: rest =>
      match pat, dropPrefixL pat l with
      | _ :: _, some tail => rep ++ replaceAux pat rep fuel tail
      | _, _ => c :: replaceAux pat rep fuel rest

def replaceAllL (pat rep l : Line) : Line := replaceAux pat rep l.length l

/-- Is `pat` a substring of `l`? -/
def containsL (pat : Line) : Line → Bool
  | [] => (dropPrefixL pat []).isSome
  | c :: rest => (dropPrefixL pat (c :: rest)).isSome || containsL pat rest

/-- `_prepare_command`. -/
def prepare_command (command : Line) (parameters : Option (List (Line × Line))) : Line :=
  match parameters with
  | none => command
  | some [] => command
  | some ps =>
    let quoted := shlexQuote (jsonDumps ps)
    if containsL paramsToken command then replaceAllL paramsToken quoted command
    else command ++ ' ' :: quoted

/-- Round half to even at three decimals (`round(elapsed, 3)`). -/
def round3 (q : ℚ) : ℚ := mkRat (rheInt (1000 * q.num) q.den) 1000

/-- `execute_task`.  The wall-clock readings and the subprocess outcome
are inputs (the only interaction with the outside world); the function
is total — every outcome, including timeout and a raising launch, is
mapped to an `ExecutionResult`, which models the never-raise contract
of the Python `try`/`except` structure. -/
def execute_task (task_id command : Line) (timeout : ℚ)
    (parameters : Option (List (Line × Line))) (started_at finished_at : DateTime)
    (elapsed : ℚ) (outcome : Line → SubprocessOutcome) : ExecutionResult :=
  -- `command` is prepared before the try block; it cannot raise.
  let prepared := prepare_command command parameters
  match outcome prepared with
  | .completed rc out err =>
    let ok := rc == 0
    { task_id := task_id
      success := ok
      exit_code := rc
      stdout := out
      stderr := err
      started_at := started_at
      finished_at := finished_at
      duration := round3 elapsed
      error_message :=
        if ok then none
        else if !(trim err).isEmpty then some (trim err)
        else some (lineOf "Command exited with code " ++ intLine rc)
      timed_out := false }
  | .timedOut =>
    { task_id := task_id
      success := false
      exit_code := -1
      stdout := []
      stderr := []
      started_at := started_at
      finished_at := finished_at
      duration := round3 elapsed
      error_message := some (lineOf "Command timed out after " ++ fixed1 timeout ++ ['s'])
      timed_out := true }
  | .raised msg =>
    { task_id := task_id
      success := false
      exit_code := -1
      stdout := []
      stderr := []
      started_at := started_at
      finished_at := finished_at
      duration := round3 elapsed
      error_message := some msg
      timed_out := false }

/-! ## Derived views used by the statements below -/

/-- The Current State section lines written by `update_task_state`. -/
def csLines (result : ExecutionResult) (next_run : Option DateTime) : List Line :=
  build_current_state_lines (if result.success then .success else .failed)
    (some result.started_at) next_run (some result.duration) (some result.summary)

/-- The Statistics section lines written by `update_task_state`. -/
def statsLines (task : Task) (result : ExecutionResult) : List Line :=
  build_statistics_lines (task.total_runs + 1)
    (task.successful_runs + if result.success then 1 else 0)
    (task.failed_runs + if result.success then 0 else 1)
    (if result.success then task.last_failure else some result.started_at)

/-- The document after the first patch (Current State). -/
def updL1 (lines : List Line) (result : ExecutionResult) (next_run : Option DateTime) :
    List Line :=
  replace_or_insert_section lines (lineOf "Current State") (csLines result next_run)
    0 lines.length

/-- The document after the second patch (Statistics). -/
def updL2 (lines : List Line) (task : Task) (result : ExecutionResult)
    (next_run : Option DateTime) : List Line :=
  let l1 := updL1 lines result next_run
  replace_or_insert_section l1 (lineOf "Statistics") (statsLines task result) 0 l1.length

/-- The Run History section lines written by `update_task_state` (new
row merged with the rows already present in the twice-patched
document). -/
def histLines (l2 : List Line) (result : ExecutionResult) (report_name : Option Line) :
    List Line :=
  let existing_rows :=
    match find_section_range l2 (lineOf "Run History") 0 (some l2.length) with
    | some r => parse_history_rows l2 r
    | none => []
  build_run_history_lines existing_rows result report_name

/-- `(start, end, inserted length)` of the single splice a
`_replace_or_insert_section` call performs on a whole-file block: the
found section extent is replaced by `new.length + 1` lines, or the
empty extent at end-of-document receives the new section (with its
conditional leading blank). -/
def spliceData (lines : List Line) (title : Line) (new : List Line) : Nat × Nat × Nat :=
  match find_section_range lines title 0 (some lines.length) with
  | some (s, e) => (s, e, new.length + 1)
  | none =>
    (lines.length, lines.length,
      (if 0 < lines.length ∧ trim (lines.getD (lines.length - 1) []) ≠ [] then 1 else 0) +
        new.length + 1)

/-- Where line `i` of the original document lands after replacing
`[s, e)` by `d` lines: unchanged before the extent, shifted by
`d - (e - s)` after it. -/
def spliceMap (s e d i : Nat) : Nat := if i < s then i else s + d + (i - e)

/-- The splice performed by the first patch of `update_task_state`
(Current State). -/
def stage1Splice (lines : List Line) (result : ExecutionResult)
    (next_run : Option DateTime) : Nat × Nat × Nat :=
  spliceData lines (lineOf "Current State") (csLines result next_run)

/-- The splice performed by the second patch (Statistics), on the
once-patched document. -/
def stage2Splice (lines : List Line) (task : Task) (result : ExecutionResult)
    (next_run : Option DateTime) : Nat × Nat × Nat :=
  spliceData (updL1 lines result next_run) (lineOf "Statistics") (statsLines task result)

/-- The splice performed by the third patch (Run History), on the
twice-patched document. -/
def stage3Splice (lines : List Line) (task : Task) (result : ExecutionResult)
    (next_run : Option DateTime) (report_name : Option Line) : Nat × Nat × Nat :=
  spliceData (updL2 lines task result next_run) (lineOf "Run History")
    (histLines (updL2 lines task result next_run) result report_name)

/-- Index transport through one splice. -/
def mapThroughSplice (sed : Nat × Nat × Nat) (i : Nat) : Nat :=
  spliceMap sed.1 sed.2.1 sed.2.2 i

/-- Line `i` lies outside the managed extent of a splice. -/
def outsideSplice (sed : Nat × Nat × Nat) (i : Nat) : Prop := i < sed.1 ∨ sed.2.1 ≤ i

instance (sed : Nat × Nat × Nat) (i : Nat) : Decidable (outsideSplice sed i) :=
  inferInstanceAs (Decidable (i < sed.1 ∨ sed.2.1 ≤ i))

/-- A document with a task definition, unmanaged prose under its own
heading, and pre-existing managed sections. -/
def docFrame : List Line :=
  [lineOf "# My Task", [], lineOf "- Command: `x`", lineOf "- Schedule: 0 2 * * *", [],
   lineOf "## Notes", lineOf "some prose the patcher must not touch", [],
   lineOf "#### Current State", lineOf "- Status: Never run", [],
   lineOf "#### Statistics", lineOf "- Total Runs: 0", [],
   lineOf "#### Run History", lineOf "| Time | Status | Duration | Report |",
   lineOf "|------|--------|----------|--------|"]

/-- One document-reading/row-rebuilding cycle of the Run History table:
the rows recovered by `_parse_history_rows` from the full section that
`build_run_history_lines` renders. -/
def historyCycle (rows : List Line) (result : ExecutionResult) : List Line :=
  let section_lines := build_run_history_lines rows result none
  parse_history_rows section_lines (0, section_lines.length)

/-- Rows as this system renders them: stripped, starting `"| "`, with a
digit (the timestamp year) right after — precisely what the
`_parse_history_rows` filters pass through unchanged. -/
def isCanonicalRow (l : Line) : Bool :=
  trim l == l && startsWithL (lineOf "| ") l && (l.drop 2).head?.any isDigitChar

/-- The statistics update performed by `update_task_state` (writer
lines 321–327) expressed on the task record the next cycle re-parses:
the counters written to the Statistics section and the most recent
failure start time. -/
def apply_stats (task : Task) (result : ExecutionResult) : Task :=
  { task with
    total_runs := task.total_runs + 1
    successful_runs := task.successful_runs + if result.success then 1 else 0
    failed_runs := task.failed_runs + if result.success then 0 else 1
    last_failure := if result.success then task.last_failure else some result.started_at }

/-! Sample concrete inputs shared by the witnesses. -/

def sampleDT : DateTime := ⟨2024, 12, 16, 2, 0, 15⟩

def sampleResultOk : ExecutionResult :=
  { task_id := lineOf "my-task", success := true, exit_code := 0, stdout := lineOf "hello",
    stderr := [], started_at := sampleDT, finished_at := sampleDT, duration := mkRat 1 10 }

def sampleResultFail : ExecutionResult :=
  { task_id := lineOf "my-task", success := false, exit_code := 1, stdout := [],
    stderr := lineOf "boom", started_at := ⟨2024, 12, 17, 3, 0, 0⟩,
    finished_at := ⟨2024, 12, 17, 3, 0, 5⟩, duration := mkRat 5 1,
    error_message := some (lineOf "boom") }

def sampleTask : Task :=
  { id := lineOf "my-task", title := lineOf "My Task", command := lineOf "echo hi",
    schedule := lineOf "0 2 * * *", total_runs := 4, successful_runs := 3, failed_runs := 1,
    file_path := some (lineOf "Tasks/My Task.md") }

/-- The capture of the last line matching a field pattern. -/
def lastCapture (f : Line → Option Line) (lines : List Line) : Option Line :=
  (lines.filterMap f).getLast?

/-- The capture of the first line matching a field pattern. -/
def firstCapture (f : Line → Option Line) (lines : List Line) : Option Line :=
  (lines.filterMap f).head?

/-- A fresh `_RawBlock` with no fields recorded. -/
def emptyRaw : RawBlock := { title := [], heading_level := 0, heading_line := 0 }

/-- A minimal definition document for a task. -/
def sampleDoc : List Line :=
  [lineOf "# My Task", [], lineOf "- Command: `echo hi`", lineOf "- Schedule: 0 2 * * *"]

/-- The document `update_task_state` produces from the minimal
definition file `sampleDoc`: the three managed sections are appended in
order, each followed by a blank line (the final blank is kept separate
below). -/
def expectedBody (task : Task) (result : ExecutionResult) (next_run : Option DateTime)
    (report_name : Option Line) : List Line :=
  sampleDoc ++ [[]] ++ csLines result next_run ++ [[]] ++ statsLines task result ++ [[]] ++
    build_run_history_lines [] result report_name

/-- One heading followed by two identical Command lines (and one
Schedule): both Command lines resolve to the same heading. -/
def docTwoCommands : List Line :=
  [lineOf "# T", lineOf "- Command: `a`", lineOf "- Schedule: x", lineOf "- Command: `a`"]

/-- A generic `#### Task Definition` sub-heading nested under the real
title heading `## Backup Docs`. -/
def docGeneric : List Line :=
  [lineOf "## Backup Docs", lineOf "#### Task Definition", lineOf "- Command: `x`",
   lineOf "- Schedule: 0 2 * * *"]

/-- A block with a Command but no Schedule (incomplete task). -/
def docNoSchedule : List Line :=
  [lineOf "# A", lineOf "- Command: `x`"]

end ObsTasks

namespace ObsTasks


/-! ## Helper lemmas -/

theorem dropPrefixL_eq_append {p l r : Line} (h : dropPrefixL p l = some r) : l = p ++ r := by
  induction p generalizing l with
  | nil =>
    simp only [dropPrefixL, Option.some.injEq] at h
    simp [h]
  | cons c cs ih =>
    cases l with
    | nil => simp [dropPrefixL] at h
    | cons d ds =>
      simp only [dropPrefixL] at h
      split at h
      · next hb => simp [ih h, (beq_iff_eq.mp hb)]
      · exact absurd h (by simp)

theorem digitChar_digit {d : Nat} (h : d < 10) : isDigitChar (digitChar d) = true := by
  interval_cases d <;> decide

theorem ltrim_cons_of {c : Char} {r : Line} (h : isSpaceChar c = false) :
    ltrim (c :: r) = c :: r := by
  simp [ltrim, List.dropWhile_cons, h]

theorem rtrim_eq_self {l : Line} (h : l.getLast?.any (fun c => !isSpaceChar c)) :
    rtrim l = l := by
  unfold rtrim
  cases hr : l.reverse with
  | nil =>
    have : l = [] := by simpa using congrArg List.reverse hr
    simp [this]
  | cons d t =>
    have hd : l.getLast? = some d := by rw [← List.head?_reverse, hr]; rfl
    rw [hd] at h
    simp only [Option.any_some, Bool.not_eq_true'] at h
    rw [List.dropWhile_cons, h]
    simp only [Bool.false_eq_true, if_false]
    rw [← hr, List.reverse_reverse]

theorem trim_eq_self {l : Line} (h1 : l.head?.any (fun c => !isSpaceChar c))
    (h2 : l.getLast?.any (fun c => !isSpaceChar c)) : trim l = l := by
  cases l with
  | nil => rfl
  | cons c r =>
    simp only [List.head?_cons, Option.any_some, Bool.not_eq_true'] at h1
    unfold trim
    rw [ltrim_cons_of h1]
    exact rtrim_eq_self h2

theorem take_absorb {α : Type _} (n : Nat) (A B : List α) :
    List.take n (A ++ List.take n B) = List.take n (A ++ B) := by
  rw [List.take_append_eq_append_take, List.take_append_eq_append_take, List.take_take]
  have : (n - A.length) ⊓ n = n - A.length := inf_eq_left.2 (Nat.sub_le _ _)
  rw [this]

theorem all_take {α : Type _} {p : α → Bool} {l : List α} (n : Nat) (h : l.all p = true) :
    (l.take n).all p = true := by
  rw [List.all_eq_true] at h ⊢
  exact fun x hx => h x (List.take_subset n l hx)

/-! ## C4 — bounded, most-recent-first history -/

theorem historyRowFilter_canonical {l : Line} (h : isCanonicalRow l = true) :
    historyRowFilter l = some l := by
  simp only [isCanonicalRow, Bool.and_eq_true, beq_iff_eq] at h
  obtain ⟨⟨htrim, hstart⟩, hdig⟩ := h
  obtain ⟨rest, hrest⟩ := Option.isSome_iff_exists.mp hstart
  have hl : l = '|' :: ' ' :: rest := dropPrefixL_eq_append hrest
  subst hl
  cases rest with
  | nil => simp at hdig
  | cons c rest =>
    simp only [List.drop_succ_cons, List.drop_zero, List.head?_cons, Option.any_some] at hdig
    have hTc : ('T' == c) = false := by
      cases hbc : ('T' == c) with
      | false => rfl
      | true =>
        exfalso
        have he : 'T' = c := beq_iff_eq.mp hbc
        rw [← he] at hdig
        simp [isDigitChar] at hdig
    simp [historyRowFilter, htrim, startsWithL, dropPrefixL, hTc]

theorem history_row_canonical (r : ExecutionResult) (name : Option Line) :
    isCanonicalRow (history_row r name) = true := by
  obtain ⟨T, hT⟩ : ∃ T, history_row r name =
      '|' :: ' ' :: digitChar (r.started_at.year / 1000 % 10) :: T := ⟨_, rfl⟩
  have hlast : (history_row r name).getLast? = some '|' := by
    unfold history_row
    rw [List.getLast?_append]
    rfl
  simp only [isCanonicalRow, Bool.and_eq_true, beq_iff_eq]
  refine ⟨⟨?_, ?_⟩, ?_⟩
  · refine trim_eq_self ?_ ?_
    · rw [hT]
      simp
      decide
    · rw [hlast]
      simp
      decide
  · rw [hT]
    simp [startsWithL, dropPrefixL, lineOf]
  · rw [hT]
    simp only [List.drop_succ_cons, List.drop_zero, List.head?_cons, Option.any_some]
    exact digitChar_digit (Nat.mod_lt _ (by omega))

theorem filterMap_canonical {rows : List Line} (h : rows.all isCanonicalRow = true) :
    rows.filterMap historyRowFilter = rows := by
  induction rows with
  | nil => rfl
  | cons l t ih =>
    rw [List.all_cons, Bool.and_eq_true] at h
    rw [List.filterMap_cons, historyRowFilter_canonical h.1, ih h.2]

/-- One execute+rewrite cycle on canonical rows: the table re-read from
the rendered section is exactly the new row prepended and the result
truncated to `MAX_HISTORY_ROWS`. -/
theorem historyCycle_step {rows : List Line} (r : ExecutionResult)
    (h : rows.all isCanonicalRow = true) :
    historyCycle rows r = (history_row r none :: rows).take MAX_HISTORY_ROWS := by
  simp only [historyCycle, parse_history_rows, build_run_history_lines, List.take_length,
    List.drop_zero, List.filterMap_append]
  have hh : HISTORY_HEADER.filterMap historyRowFilter = [] := by decide
  rw [hh, List.nil_append]
  refine filterMap_canonical (all_take _ ?_)
  rw [List.all_cons, Bool.and_eq_true]
  exact ⟨history_row_canonical r none, h⟩

/-- Closed form of iterating the history cycle: the most recent rows
first, truncated to capacity. -/
theorem historyCycle_fold (rs : List ExecutionResult) (rows0 : List Line)
    (h0 : rows0.all isCanonicalRow = true) (hne : rs ≠ []) :
    rs.foldl historyCycle rows0 =
      List.take MAX_HISTORY_ROWS
        ((rs.reverse.map fun r => history_row r none) ++ rows0) := by
  induction rs generalizing rows0 with
  | nil => exact absurd rfl hne
  | cons r rs ih =>
    rw [List.foldl_cons, historyCycle_step r h0]
    by_cases hr : rs = []
    · subst hr
      simp
    · have hall : ((history_row r none :: rows0).take MAX_HISTORY_ROWS).all isCanonicalRow
          = true := by
        refine all_take _ ?_
        rw [List.all_cons, Bool.and_eq_true]
        exact ⟨history_row_canonical r none, h0⟩
      rw [ih _ hall hr]
      have habs := take_absorb MAX_HISTORY_ROWS (rs.reverse.map fun r => history_row r none)
        (history_row r none :: rows0)
      rewrite [habs]
      refine congrArg (List.take MAX_HISTORY_ROWS) ?_
      rw [List.reverse_cons, List.map_append]
      simp

/-- C4: `build_run_history_lines` prepends the new execution's row and
keeps at most `MAX_HISTORY_ROWS` rows, dropping excess rows from the
tail; and after `N > 20` execute+rewrite cycles (each rendering the
table and re-reading it with `_parse_history_rows`) the table holds
exactly 20 data rows, ordered most recent first. -/
theorem bounded_history (existing_rows : List Line) (result : ExecutionResult)
    (report_name : Option Line) (rs : List ExecutionResult) (hN : 20 < rs.length) :
    build_run_history_lines existing_rows result report_name =
      HISTORY_HEADER ++
        (history_row result report_name :: existing_rows).take MAX_HISTORY_ROWS ∧
    (rs.foldl historyCycle []).length = MAX_HISTORY_ROWS ∧
    rs.foldl historyCycle [] =
      (rs.reverse.take MAX_HISTORY_ROWS).map fun r => history_row r none := by
  have hne : rs ≠ [] := by
    intro e
    rw [e] at hN
    simp at hN
  have hf := historyCycle_fold rs [] (by simp) hne
  rw [List.append_nil] at hf
  have hform : rs.foldl historyCycle [] =
      (rs.reverse.take MAX_HISTORY_ROWS).map fun r => history_row r none := by
    rw [hf, List.map_take]
  refine ⟨rfl, ?_, hform⟩
  rw [hform]
  simp only [List.length_map, List.length_take, List.length_reverse]
  exact inf_eq_left.2 (by simpa [MAX_HISTORY_ROWS] using Nat.le_of_lt hN)

/-- Witness for C4: twenty-one executions starting from an empty
table leave exactly twenty rows. -/
theorem bounded_history_witness :
    ((List.replicate 21 sampleResultOk).foldl historyCycle []).length = MAX_HISTORY_ROWS :=
  (bounded_history [] sampleResultOk none (List.replicate 21 sampleResultOk)
    (by decide)).2.1

/-! ## C2 — frame property of the section patcher -/

theorem findSectionAux_bounds (target : Line) (rem : List Line) :
    ∀ (i : Nat) (st : Option (Nat × Nat)) (a b : Nat),
      (∀ s lvl, st = some (s, lvl) → s < i) →
      findSectionAux target rem i st = some (a, b) →
      a < b ∧ b ≤ i + rem.length := by
  induction rem with
  | nil =>
    intro i st a b hst h
    cases st with
    | none => simp [findSectionAux] at h
    | some p =>
      obtain ⟨s, lvl⟩ := p
      simp only [findSectionAux, Option.map_some', Option.some.injEq,
        Prod.mk.injEq] at h
      obtain ⟨ha, hb⟩ := h
      subst ha
      subst hb
      exact ⟨hst _ lvl rfl, by simp⟩
  | cons l rest ih =>
    intro i st a b hst h
    rcases hmm : matchHeading l with _ | ⟨lvl, t⟩ <;>
      rcases hstt : st with _ | ⟨s, slvl⟩ <;> subst hstt <;>
        simp only [findSectionAux, hmm] at h
    · -- no heading, no open section
      have := ih (i + 1) none a b (by simp) h
      exact ⟨this.1, by simp only [List.length_cons]; omega⟩
    · -- no heading, open section: separator checks
      have hs : s < i := hst s slvl rfl
      split at h
      · injection h with h'
        injection h' with h1 h2
        subst h1
        subst h2
        exact ⟨hs, by simp only [List.length_cons]; omega⟩
      · split at h
        · injection h with h'
          injection h' with h1 h2
          subst h1
          subst h2
          exact ⟨hs, by simp only [List.length_cons]; omega⟩
        · have := ih (i + 1) (some (s, slvl)) a b
            (fun s' lvl' h' => by
              injection h' with h''
              injection h'' with h1 _
              omega) h
          exact ⟨this.1, by simp only [List.length_cons]; omega⟩
    · -- heading, no open section
      split at h
      · have := ih (i + 1) (some (i, lvl)) a b
          (fun s' lvl' h' => by
            injection h' with h''
            injection h'' with h1 _
            omega) h
        exact ⟨this.1, by simp only [List.length_cons]; omega⟩
      · have := ih (i + 1) none a b (by simp) h
        exact ⟨this.1, by simp only [List.length_cons]; omega⟩
    · -- heading, open section
      have hs : s < i := hst s slvl rfl
      split at h
      · injection h with h'
        injection h' with h1 h2
        subst h1
        subst h2
        exact ⟨hs, by simp only [List.length_cons]; omega⟩
      · have := ih (i + 1) (some (s, slvl)) a b
          (fun s' lvl' h' => by
            injection h' with h''
            injection h'' with h1 _
            omega) h
        exact ⟨this.1, by simp only [List.length_cons]; omega⟩

theorem find_section_range_bounds {lines : List Line} {title : Line} {s e : Nat}
    (h : find_section_range lines title 0 (some lines.length) = some (s, e)) :
    s < e ∧ e ≤ lines.length := by
  unfold find_section_range at h
  simp only [Option.getD_some, List.drop_zero, List.take_length] at h
  have := findSectionAux_bounds title lines 0 none s e (by simp) h
  omega

/-- Each `_replace_or_insert_section` call on a whole-file block is a
single splice: the output is the input with exactly the computed extent
`[s, e)` replaced by `d` lines, everything else kept in order. -/
theorem replace_shape (lines : List Line) (title : Line) (new : List Line) :
    ∃ M : List Line,
      replace_or_insert_section lines title new 0 lines.length =
        lines.take (spliceData lines title new).1 ++ M ++
          lines.drop (spliceData lines title new).2.1 ∧
      M.length = (spliceData lines title new).2.2 ∧
      (spliceData lines title new).1 ≤ (spliceData lines title new).2.1 ∧
      (spliceData lines title new).2.1 ≤ lines.length := by
  unfold replace_or_insert_section spliceData
  cases h : find_section_range lines title 0 (some lines.length) with
  | some p =>
    obtain ⟨s, e⟩ := p
    have hb := find_section_range_bounds h
    exact ⟨new ++ [[]], by simp, by simp, le_of_lt hb.1, hb.2⟩
  | none =>
    refine ⟨(if 0 < lines.length ∧ trim (lines.getD (lines.length - 1) []) ≠ [] then [[]]
        else []) ++ new ++ [[]], ?_, ?_, le_refl _, le_refl _⟩
    · simp
    · split
      · simp
        omega
      · simp

theorem splice_getD {L M : List Line} {s e d : Nat} (hd : M.length = d) (hse : s ≤ e)
    (hel : e ≤ L.length) {i : Nat} (hi : i < L.length) (hout : i < s ∨ e ≤ i) :
    (L.take s ++ M ++ L.drop e).getD (spliceMap s e d i) [] = L.getD i [] ∧
    spliceMap s e d i < (L.take s ++ M ++ L.drop e).length := by
  have hlt : (L.take s).length = s := by
    rw [List.length_take]
    omega
  have hlen : (L.take s ++ M ++ L.drop e).length = s + d + (L.length - e) := by
    simp only [List.length_append, hlt, hd, List.length_drop]
  rcases hout with hlo | hhi
  · have hmap : spliceMap s e d i = i := by simp [spliceMap, hlo]
    refine ⟨?_, ?_⟩
    · rw [hmap]
      rw [List.getD_append _ _ _ i (by simp only [List.length_append, hlt, hd]; omega)]
      rw [List.getD_append _ _ _ i (by rw [hlt]; omega)]
      rw [List.getD_eq_getElem?_getD, List.getD_eq_getElem?_getD, List.getElem?_take,
        if_pos hlo]
    · rw [hmap, hlen]
      omega
  · have hmap : spliceMap s e d i = s + d + (i - e) := by
      simp only [spliceMap]
      rw [if_neg (by omega)]
    refine ⟨?_, ?_⟩
    · rw [hmap]
      rw [List.getD_append_right _ _ _ _ (by simp only [List.length_append, hlt, hd]; omega)]
      simp only [List.length_append, hlt, hd]
      have harith : s + d + (i - e) - (s + d) = i - e := by omega
      rw [harith]
      rw [List.getD_eq_getElem?_getD, List.getD_eq_getElem?_getD, List.getElem?_drop]
      have harith2 : e + (i - e) = i := by omega
      rw [harith2]
    · rw [hmap, hlen]
      omega

/-- C2: `update_task_state` changes only the lines inside the three
managed extents it computes (Current State in the original document,
Statistics in the once-patched document, Run History in the
twice-patched document, per the recompute-bounds-after-each-patch
rule); every line outside those extents reappears byte-identical in
the output document, at the index obtained by transporting through the
three splices. -/
theorem update_frame (lines : List Line) (task : Task) (result : ExecutionResult)
    (next_run : Option DateTime) (report_name : Option Line) (i : Nat)
    (hi : i < lines.length)
    (h1 : outsideSplice (stage1Splice lines result next_run) i)
    (h2 : outsideSplice (stage2Splice lines task result next_run)
      (mapThroughSplice (stage1Splice lines result next_run) i))
    (h3 : outsideSplice (stage3Splice lines task result next_run report_name)
      (mapThroughSplice (stage2Splice lines task result next_run)
        (mapThroughSplice (stage1Splice lines result next_run) i))) :
    (update_task_state_lines lines task result next_run report_name).getD
        (mapThroughSplice (stage3Splice lines task result next_run report_name)
          (mapThroughSplice (stage2Splice lines task result next_run)
            (mapThroughSplice (stage1Splice lines result next_run) i))) [] =
      lines.getD i [] := by
  obtain ⟨M1, hM1eq, hM1len, hse1, hel1⟩ :=
    replace_shape lines (lineOf "Current State") (csLines result next_run)
  obtain ⟨M2, hM2eq, hM2len, hse2, hel2⟩ :=
    replace_shape (updL1 lines result next_run) (lineOf "Statistics")
      (statsLines task result)
  obtain ⟨M3, hM3eq, hM3len, hse3, hel3⟩ :=
    replace_shape (updL2 lines task result next_run) (lineOf "Run History")
      (histLines (updL2 lines task result next_run) result report_name)
  have step1 := splice_getD hM1len hse1 hel1 hi h1
  have hL1 : updL1 lines result next_run =
      lines.take (spliceData lines (lineOf "Current State") (csLines result next_run)).1 ++
        M1 ++
        lines.drop
          (spliceData lines (lineOf "Current State") (csLines result next_run)).2.1 :=
    hM1eq
  rw [← hL1] at step1
  have step2 := splice_getD hM2len hse2 hel2 step1.2 h2
  have hL2 : updL2 lines task result next_run =
      (updL1 lines result next_run).take
          (spliceData (updL1 lines result next_run) (lineOf "Statistics")
            (statsLines task result)).1 ++
        M2 ++
        (updL1 lines result next_run).drop
          (spliceData (updL1 lines result next_run) (lineOf "Statistics")
            (statsLines task result)).2.1 := hM2eq
  rw [← hL2] at step2
  have step3 := splice_getD hM3len hse3 hel3 step2.2 h3
  have hL3 : update_task_state_lines lines task result next_run report_name =
      (updL2 lines task result next_run).take
          (spliceData (updL2 lines task result next_run) (lineOf "Run History")
            (histLines (updL2 lines task result next_run) result report_name)).1 ++
        M3 ++
        (updL2 lines task result next_run).drop
          (spliceData (updL2 lines task result next_run) (lineOf "Run History")
            (histLines (updL2 lines task result next_run) result report_name)).2.1 :=
    hM3eq
  rw [← hL3] at step3
  exact (step3.1.trans step2.1).trans step1.1

/-- Witness for C2: in a document with prose, another heading and all
three managed sections, the prose line (index 6) survives the update
byte-identically. -/
theorem update_frame_witness :
    (update_task_state_lines docFrame sampleTask sampleResultOk none none).getD
        (mapThroughSplice (stage3Splice docFrame sampleTask sampleResultOk none none)
          (mapThroughSplice (stage2Splice docFrame sampleTask sampleResultOk none)
            (mapThroughSplice (stage1Splice docFrame sampleResultOk none) 6))) [] =
      docFrame.getD 6 [] :=
  update_frame docFrame sampleTask sampleResultOk none none 6 (by decide) (by decide)
    (by decide) (by decide)

/-! ## C1 — document structure produced by `update_task_state` -/

theorem matchHeading_pipe_none (r Z : Line) : matchHeading (('|' :: r) ++ Z) = none := rfl

theorem heading_pipe_false {r Z : Line} {p : Nat × Line}
    (hm : matchHeading (('|' :: r) ++ Z) = some p) : False := by
  rw [matchHeading_pipe_none] at hm
  exact Option.noConfusion hm

theorem fm_blank (label : Line) :
    List.filterMap (matchField label) [([] : Line)] = [] := rfl

theorem bt_blank : List.filterMap matchCommandBacktick [([] : Line)] = [] := rfl

theorem headingsOf_expected (task : Task) (result : ExecutionResult)
    (next_run : Option DateTime) (report_name : Option Line) :
    headingsOf (expectedBody task result next_run report_name) =
      [(0, 1, lineOf "My Task"), (5, 4, lineOf "Current State"),
       (12, 4, lineOf "Statistics"), (18, 4, lineOf "Run History")] := rfl

theorem matchField_prefix_of_some {label ℓ a : Line} (h : matchField label ℓ = some a) :
    ∃ rest, ℓ = '-' :: rest ∧ (label ++ [':']) <+: ltrim rest := by
  cases ℓ with
  | nil => simp [matchField] at h
  | cons c rest =>
    simp only [matchField] at h
    split at h
    · next hc =>
      cases hdp : dropPrefixL (label ++ [':']) (ltrim rest) with
      | none => rw [hdp] at h; simp at h
      | some r => exact ⟨rest, by rw [hc], ⟨r, (dropPrefixL_eq_append hdp).symm⟩⟩
    · simp at h

theorem matchCommandBacktick_prefix_of_some {ℓ a : Line}
    (h : matchCommandBacktick ℓ = some a) :
    ∃ rest, ℓ = '-' :: rest ∧ ((lineOf "Command" ++ [':']) <+: ltrim rest) := by
  cases ℓ with
  | nil => simp [matchCommandBacktick] at h
  | cons c rest =>
    simp only [matchCommandBacktick] at h
    split at h
    · next hc =>
      cases hdp : dropPrefixL (lineOf "Command" ++ [':']) (ltrim rest) with
      | none => rw [hdp] at h; simp at h
      | some r => exact ⟨rest, by rw [hc], ⟨r, (dropPrefixL_eq_append hdp).symm⟩⟩
    · simp at h

theorem matchField_of_ne {l1 l2 ℓ a : Line}
    (hp1 : ¬ (l1 ++ [':'] <+: l2 ++ [':'])) (hp2 : ¬ (l2 ++ [':'] <+: l1 ++ [':']))
    (h : matchField l1 ℓ = some a) : matchField l2 ℓ = none := by
  cases h2 : matchField l2 ℓ with
  | none => rfl
  | some b =>
    obtain ⟨rest, hl, hpre1⟩ := matchField_prefix_of_some h
    obtain ⟨rest2, hl2, hpre2⟩ := matchField_prefix_of_some h2
    rw [hl] at hl2
    injection hl2 with _ he
    subst he
    rcases List.prefix_or_prefix_of_prefix hpre1 hpre2 with hp | hp
    · exact absurd hp hp1
    · exact absurd hp hp2

theorem bt_none_of_field {lF ℓ a : Line}
    (hp1 : ¬ (lF ++ [':'] <+: lineOf "Command" ++ [':']))
    (hp2 : ¬ (lineOf "Command" ++ [':'] <+: lF ++ [':']))
    (h : matchField lF ℓ = some a) : matchCommandBacktick ℓ = none := by
  cases h2 : matchCommandBacktick ℓ with
  | none => rfl
  | some b =>
    obtain ⟨rest, hl, hpre1⟩ := matchField_prefix_of_some h
    obtain ⟨rest2, hl2, hpre2⟩ := matchCommandBacktick_prefix_of_some h2
    rw [hl] at hl2
    injection hl2 with _ he
    subst he
    rcases List.prefix_or_prefix_of_prefix hpre1 hpre2 with hp | hp
    · exact absurd hp hp1
    · exact absurd hp hp2

/-! The twelve loop branches assign pairwise distinct fields, and the
labels are pairwise non-prefix (checked by `decide`), so a line
matching one field pattern reaches its own branch.  One
"sets"/"keeps" pair per recognized field.  `Fd` abbreviates the
instantiated disjointness facts. -/

theorem extractStep_sets_schedule (raw : RawBlock) (ℓ v : Line)
    (h : matchField (lineOf "Schedule") ℓ = some v) :
    (extractStep raw ℓ).schedule = some v := by
  have h0 := bt_none_of_field (by decide) (by decide) h
  have h1 := @matchField_of_ne _ (lineOf "Command") _ _ (by decide) (by decide) h
  simp [extractStep, h0, h1, h]

theorem extractStep_sets_status (raw : RawBlock) (ℓ v : Line)
    (h : matchField (lineOf "Status") ℓ = some v) :
    (extractStep raw ℓ).status = some v := by
  have h0 := bt_none_of_field (by decide) (by decide) h
  have h1 := @matchField_of_ne _ (lineOf "Command") _ _ (by decide) (by decide) h
  have h2 := @matchField_of_ne _ (lineOf "Schedule") _ _ (by decide) (by decide) h
  simp [extractStep, h0, h1, h2, h]

theorem extractStep_sets_last_run (raw : RawBlock) (ℓ v : Line)
    (h : matchField (lineOf "Last Run") ℓ = some v) :
    (extractStep raw ℓ).last_run = some v := by
  have h0 := bt_none_of_field (by decide) (by decide) h
  have h1 := @matchField_of_ne _ (lineOf "Command") _ _ (by decide) (by decide) h
  have h2 := @matchField_of_ne _ (lineOf "Schedule") _ _ (by decide) (by decide) h
  have h3 := @matchField_of_ne _ (lineOf "Status") _ _ (by decide) (by decide) h
  simp [extractStep, h0, h1, h2, h3, h]

theorem extractStep_sets_next_run (raw : RawBlock) (ℓ v : Line)
    (h : matchField (lineOf "Next Run") ℓ = some v) :
    (extractStep raw ℓ).next_run = some v := by
  have h0 := bt_none_of_field (by decide) (by decide) h
  have h1 := @matchField_of_ne _ (lineOf "Command") _ _ (by decide) (by decide) h
  have h2 := @matchField_of_ne _ (lineOf "Schedule") _ _ (by decide) (by decide) h
  have h3 := @matchField_of_ne _ (lineOf "Status") _ _ (by decide) (by decide) h
  have h4 := @matchField_of_ne _ (lineOf "Last Run") _ _ (by decide) (by decide) h
  simp [extractStep, h0, h1, h2, h3, h4, h]

theorem extractStep_sets_duration (raw : RawBlock) (ℓ v : Line)
    (h : matchField (lineOf "Duration") ℓ = some v) :
    (extractStep raw ℓ).duration = some v := by
  have h0 := bt_none_of_field (by decide) (by decide) h
  have h1 := @matchField_of_ne _ (lineOf "Command") _ _ (by decide) (by decide) h
  have h2 := @matchField_of_ne _ (lineOf "Schedule") _ _ (by decide) (by decide) h
  have h3 := @matchField_of_ne _ (lineOf "Status") _ _ (by decide) (by decide) h
  have h4 := @matchField_of_ne _ (lineOf "Last Run") _ _ (by decide) (by decide) h
  have h5 := @matchField_of_ne _ (lineOf "Next Run") _ _ (by decide) (by decide) h
  simp [extractStep, h0, h1, h2, h3, h4, h5, h]

theorem extractStep_sets_result (raw : RawBlock) (ℓ v : Line)
    (h : matchField (lineOf "Result") ℓ = some v) :
    (extractStep raw ℓ).result = some v := by
  have h0 := bt_none_of_field (by decide) (by decide) h
  have h1 := @matchField_of_ne _ (lineOf "Command") _ _ (by decide) (by decide) h
  have h2 := @matchField_of_ne _ (lineOf "Schedule") _ _ (by decide) (by decide) h
  have h3 := @matchField_of_ne _ (lineOf "Status") _ _ (by decide) (by decide) h
  have h4 := @matchField_of_ne _ (lineOf "Last Run") _ _ (by decide) (by decide) h
  have h5 := @matchField_of_ne _ (lineOf "Next Run") _ _ (by decide) (by decide) h
  have h6 := @matchField_of_ne _ (lineOf "Duration") _ _ (by decide) (by decide) h
  simp [extractStep, h0, h1, h2, h3, h4, h5, h6, h]

theorem extractStep_sets_total_runs (raw : RawBlock) (ℓ v : Line)
    (h : matchField (lineOf "Total Runs") ℓ = some v) :
    (extractStep raw ℓ).total_runs = some v := by
  have h0 := bt_none_of_field (by decide) (by decide) h
  have h1 := @matchField_of_ne _ (lineOf "Command") _ _ (by decide) (by decide) h
  have h2 := @matchField_of_ne _ (lineOf "Schedule") _ _ (by decide) (by decide) h
  have h3 := @matchField_of_ne _ (lineOf "Status") _ _ (by decide) (by decide) h
  have h4 := @matchField_of_ne _ (lineOf "Last Run") _ _ (by decide) (by decide) h
  have h5 := @matchField_of_ne _ (lineOf "Next Run") _ _ (by decide) (by decide) h
  have h6 := @matchField_of_ne _ (lineOf "Duration") _ _ (by decide) (by decide) h
  have h7 := @matchField_of_ne _ (lineOf "Result") _ _ (by decide) (by decide) h
  simp [extractStep, h0, h1, h2, h3, h4, h5, h6, h7, h]

theorem extractStep_sets_successful (raw : RawBlock) (ℓ v : Line)
    (h : matchField (lineOf "Successful") ℓ = some v) :
    (extractStep raw ℓ).successful = some v := by
  have h0 := bt_none_of_field (by decide) (by decide) h
  have h1 := @matchField_of_ne _ (lineOf "Command") _ _ (by decide) (by decide) h
  have h2 := @matchField_of_ne _ (lineOf "Schedule") _ _ (by decide) (by decide) h
  have h3 := @matchField_of_ne _ (lineOf "Status") _ _ (by decide) (by decide) h
  have h4 := @matchField_of_ne _ (lineOf "Last Run") _ _ (by decide) (by decide) h
  have h5 := @matchField_of_ne _ (lineOf "Next Run") _ _ (by decide) (by decide) h
  have h6 := @matchField_of_ne _ (lineOf "Duration") _ _ (by decide) (by decide) h
  have h7 := @matchField_of_ne _ (lineOf "Result") _ _ (by decide) (by decide) h
  have h8 := @matchField_of_ne _ (lineOf "Total Runs") _ _ (by decide) (by decide) h
  simp [extractStep, h0, h1, h2, h3, h4, h5, h6, h7, h8, h]

theorem extractStep_sets_failed (raw : RawBlock) (ℓ v : Line)
    (h : matchField (lineOf "Failed") ℓ = some v) :
    (extractStep raw ℓ).failed = some v := by
  have h0 := bt_none_of_field (by decide) (by decide) h
  have h1 := @matchField_of_ne _ (lineOf "Command") _ _ (by decide) (by decide) h
  have h2 := @matchField_of_ne _ (lineOf "Schedule") _ _ (by decide) (by decide) h
  have h3 := @matchField_of_ne _ (lineOf "Status") _ _ (by decide) (by decide) h
  have h4 := @matchField_of_ne _ (lineOf "Last Run") _ _ (by decide) (by decide) h
  have h5 := @matchField_of_ne _ (lineOf "Next Run") _ _ (by decide) (by decide) h
  have h6 := @matchField_of_ne _ (lineOf "Duration") _ _ (by decide) (by decide) h
  have h7 := @matchField_of_ne _ (lineOf "Result") _ _ (by decide) (by decide) h
  have h8 := @matchField_of_ne _ (lineOf "Total Runs") _ _ (by decide) (by decide) h
  have h9 := @matchField_of_ne _ (lineOf "Successful") _ _ (by decide) (by decide) h
  simp [extractStep, h0, h1, h2, h3, h4, h5, h6, h7, h8, h9, h]

theorem extractStep_sets_last_failure (raw : RawBlock) (ℓ v : Line)
    (h : matchField (lineOf "Last Failure") ℓ = some v) :
    (extractStep raw ℓ).last_failure = some v := by
  have h0 := bt_none_of_field (by decide) (by decide) h
  have h1 := @matchField_of_ne _ (lineOf "Command") _ _ (by decide) (by decide) h
  have h2 := @matchField_of_ne _ (lineOf "Schedule") _ _ (by decide) (by decide) h
  have h3 := @matchField_of_ne _ (lineOf "Status") _ _ (by decide) (by decide) h
  have h4 := @matchField_of_ne _ (lineOf "Last Run") _ _ (by decide) (by decide) h
  have h5 := @matchField_of_ne _ (lineOf "Next Run") _ _ (by decide) (by decide) h
  have h6 := @matchField_of_ne _ (lineOf "Duration") _ _ (by decide) (by decide) h
  have h7 := @matchField_of_ne _ (lineOf "Result") _ _ (by decide) (by decide) h
  have h8 := @matchField_of_ne _ (lineOf "Total Runs") _ _ (by decide) (by decide) h
  have h9 := @matchField_of_ne _ (lineOf "Successful") _ _ (by decide) (by decide) h
  have h10 := @matchField_of_ne _ (lineOf "Failed") _ _ (by decide) (by decide) h
  simp [extractStep, h0, h1, h2, h3, h4, h5, h6, h7, h8, h9, h10, h]

theorem extractStep_keeps_schedule (raw : RawBlock) (ℓ : Line)
    (h : matchField (lineOf "Schedule") ℓ = none) :
    (extractStep raw ℓ).schedule = raw.schedule := by
  unfold extractStep
  repeat' split
  all_goals simp_all

theorem extractStep_keeps_status (raw : RawBlock) (ℓ : Line)
    (h : matchField (lineOf "Status") ℓ = none) :
    (extractStep raw ℓ).status = raw.status := by
  unfold extractStep
  repeat' split
  all_goals simp_all

theorem extractStep_keeps_last_run (raw : RawBlock) (ℓ : Line)
    (h : matchField (lineOf "Last Run") ℓ = none) :
    (extractStep raw ℓ).last_run = raw.last_run := by
  unfold extractStep
  repeat' split
  all_goals simp_all

theorem extractStep_keeps_next_run (raw : RawBlock) (ℓ : Line)
    (h : matchField (lineOf "Next Run") ℓ = none) :
    (extractStep raw ℓ).next_run = raw.next_run := by
  unfold extractStep
  repeat' split
  all_goals simp_all

theorem extractStep_keeps_duration (raw : RawBlock) (ℓ : Line)
    (h : matchField (lineOf "Duration") ℓ = none) :
    (extractStep raw ℓ).duration = raw.duration := by
  unfold extractStep
  repeat' split
  all_goals simp_all

theorem extractStep_keeps_result (raw : RawBlock) (ℓ : Line)
    (h : matchField (lineOf "Result") ℓ = none) :
    (extractStep raw ℓ).result = raw.result := by
  unfold extractStep
  repeat' split
  all_goals simp_all

theorem extractStep_keeps_total_runs (raw : RawBlock) (ℓ : Line)
    (h : matchField (lineOf "Total Runs") ℓ = none) :
    (extractStep raw ℓ).total_runs = raw.total_runs := by
  unfold extractStep
  repeat' split
  all_goals simp_all

theorem extractStep_keeps_successful (raw : RawBlock) (ℓ : Line)
    (h : matchField (lineOf "Successful") ℓ = none) :
    (extractStep raw ℓ).successful = raw.successful := by
  unfold extractStep
  repeat' split
  all_goals simp_all

theorem extractStep_keeps_failed (raw : RawBlock) (ℓ : Line)
    (h : matchField (lineOf "Failed") ℓ = none) :
    (extractStep raw ℓ).failed = raw.failed := by
  unfold extractStep
  repeat' split
  all_goals simp_all

theorem extractStep_keeps_last_failure (raw : RawBlock) (ℓ : Line)
    (h : matchField (lineOf "Last Failure") ℓ = none) :
    (extractStep raw ℓ).last_failure = raw.last_failure := by
  unfold extractStep
  repeat' split
  all_goals simp_all

/-- Generic last-match characterization for any field whose branch
assigns unconditionally. -/
theorem extract_generic_char (get : RawBlock → Option Line) (f : Line → Option Line)
    (hset : ∀ raw ℓ v, f ℓ = some v → get (extractStep raw ℓ) = some v)
    (hpre : ∀ raw ℓ, f ℓ = none → get (extractStep raw ℓ) = get raw)
    (lines : List Line) (raw : RawBlock) :
    get (extract_fields lines raw) =
      match lastCapture f lines with
      | some v => some v
      | none => get raw := by
  induction lines generalizing raw with
  | nil => rfl
  | cons ℓ ls ih =>
    have hstep : extract_fields (ℓ :: ls) raw = extract_fields ls (extractStep raw ℓ) := rfl
    rw [hstep, ih]
    unfold lastCapture
    rw [List.filterMap_cons]
    cases hf : f ℓ with
    | none =>
      cases hlast : (ls.filterMap f).getLast? with
      | some w => rfl
      | none => exact hpre raw ℓ hf
    | some v =>
      rw [List.getLast?_cons]
      cases hlast : (ls.filterMap f).getLast? with
      | some w => rfl
      | none => exact hset raw ℓ v hf

theorem extractStep_command_bt (raw : RawBlock) (ℓ v : Line)
    (h : matchCommandBacktick ℓ = some v) : (extractStep raw ℓ).command = some v := by
  simp [extractStep, h]

theorem extractStep_command_nobt (raw : RawBlock) (ℓ : Line)
    (h : matchCommandBacktick ℓ = none) :
    (extractStep raw ℓ).command =
      match raw.command with
      | some c => some c
      | none => matchField (lineOf "Command") ℓ := by
  cases hc : raw.command with
  | some c =>
    simp only [extractStep, h, hc]
    repeat' split
    all_goals simp_all
  | none =>
    cases hm : matchField (lineOf "Command") ℓ with
    | some v => simp [extractStep, h, hc, hm]
    | none =>
      simp only [extractStep, h, hc, hm]
      repeat' split
      all_goals simp_all

/-- Last-backtick-wins / first-bare-otherwise characterization of the
Command field. -/
theorem extract_command_char (lines : List Line) (raw : RawBlock) :
    (extract_fields lines raw).command =
      match lastCapture matchCommandBacktick lines with
      | some v => some v
      | none =>
        match raw.command with
        | some c => some c
        | none => firstCapture (matchField (lineOf "Command")) lines := by
  induction lines generalizing raw with
  | nil => cases hc : raw.command <;> simp [extract_fields, lastCapture, firstCapture, hc]
  | cons ℓ ls ih =>
    have hstep : extract_fields (ℓ :: ls) raw = extract_fields ls (extractStep raw ℓ) := rfl
    rw [hstep, ih]
    unfold lastCapture firstCapture
    rw [List.filterMap_cons, List.filterMap_cons]
    cases hbt : matchCommandBacktick ℓ with
    | some v =>
      rw [List.getLast?_cons]
      cases hlast : (ls.filterMap matchCommandBacktick).getLast? with
      | some w => rfl
      | none =>
        rw [extractStep_command_bt raw ℓ v hbt]
        simp
    | none =>
      cases hlast : (ls.filterMap matchCommandBacktick).getLast? with
      | some w => rfl
      | none =>
        rw [extractStep_command_nobt raw ℓ hbt]
        cases hc : raw.command with
        | some c => rfl
        | none =>
          cases hm : matchField (lineOf "Command") ℓ with
          | some v => rfl
          | none => rfl

/-- C5 counterexample: the extractor records the *last* matching line,
not the first — two Schedule lines leave the second value recorded,
and a later backtick Command line overwrites an earlier match. -/
theorem first_match_counterexample :
    matchField (lineOf "Schedule") (lineOf "- Schedule: daily") = some (lineOf "daily") ∧
    (extract_fields [lineOf "- Schedule: daily", lineOf "- Schedule: weekly"]
        emptyRaw).schedule = some (lineOf "weekly") ∧
    lineOf "weekly" ≠ lineOf "daily" ∧
    matchField (lineOf "Command") (lineOf "- Command: one") = some (lineOf "one") ∧
    (extract_fields [lineOf "- Command: one", lineOf "- Command: `two`"]
        emptyRaw).command = some (lineOf "two") := by
  decide

/-- C5 (amended): for every recognized field except Command the
recorded value is the capture of the *last* matching line (or the
value already recorded if none matches); for Command, the capture of
the last backtick-form line wins if any backtick-form line matches,
otherwise an already-recorded value is kept, otherwise the capture of
the *first* bare-form line. -/
theorem extract_fields_last_match (lines : List Line) (raw : RawBlock) :
    ((extract_fields lines raw).command =
      match lastCapture matchCommandBacktick lines with
      | some v => some v
      | none =>
        match raw.command with
        | some c => some c
        | none => firstCapture (matchField (lineOf "Command")) lines) ∧
    ((extract_fields lines raw).schedule =
      match lastCapture (matchField (lineOf "Schedule")) lines with
      | some v => some v
      | none => raw.schedule) ∧
    ((extract_fields lines raw).status =
      match lastCapture (matchField (lineOf "Status")) lines with
      | some v => some v
      | none => raw.status) ∧
    ((extract_fields lines raw).last_run =
      match lastCapture (matchField (lineOf "Last Run")) lines with
      | some v => some v
      | none => raw.last_run) ∧
    ((extract_fields lines raw).next_run =
      match lastCapture (matchField (lineOf "Next Run")) lines with
      | some v => some v
      | none => raw.next_run) ∧
    ((extract_fields lines raw).duration =
      match lastCapture (matchField (lineOf "Duration")) lines with
      | some v => some v
      | none => raw.duration) ∧
    ((extract_fields lines raw).result =
      match lastCapture (matchField (lineOf "Result")) lines with
      | some v => some v
      | none => raw.result) ∧
    ((extract_fields lines raw).total_runs =
      match lastCapture (matchField (lineOf "Total Runs")) lines with
      | some v => some v
      | none => raw.total_runs) ∧
    ((extract_fields lines raw).successful =
      match lastCapture (matchField (lineOf "Successful")) lines with
      | some v => some v
      | none => raw.successful) ∧
    ((extract_fields lines raw).failed =
      match lastCapture (matchField (lineOf "Failed")) lines with
      | some v => some v
      | none => raw.failed) ∧
    ((extract_fields lines raw).last_failure =
      match lastCapture (matchField (lineOf "Last Failure")) lines with
      | some v => some v
      | none => raw.last_failure) :=
  ⟨extract_command_char lines raw,
   extract_generic_char (fun r => r.schedule) _ extractStep_sets_schedule
     extractStep_keeps_schedule lines raw,
   extract_generic_char (fun r => r.status) _ extractStep_sets_status
     extractStep_keeps_status lines raw,
   extract_generic_char (fun r => r.last_run) _ extractStep_sets_last_run
     extractStep_keeps_last_run lines raw,
   extract_generic_char (fun r => r.next_run) _ extractStep_sets_next_run
     extractStep_keeps_next_run lines raw,
   extract_generic_char (fun r => r.duration) _ extractStep_sets_duration
     extractStep_keeps_duration lines raw,
   extract_generic_char (fun r => r.result) _ extractStep_sets_result
     extractStep_keeps_result lines raw,
   extract_generic_char (fun r => r.total_runs) _ extractStep_sets_total_runs
     extractStep_keeps_total_runs lines raw,
   extract_generic_char (fun r => r.successful) _ extractStep_sets_successful
     extractStep_keeps_successful lines raw,
   extract_generic_char (fun r => r.failed) _ extractStep_sets_failed
     extractStep_keeps_failed lines raw,
   extract_generic_char (fun r => r.last_failure) _ extractStep_sets_last_failure
     extractStep_keeps_last_failure lines raw⟩

/-! ## C6, C7, C8 — block locator -/

theorem extractStep_keeps_title (raw : RawBlock) (l : Line) :
    (extractStep raw l).title = raw.title ∧
    (extractStep raw l).heading_level = raw.heading_level ∧
    (extractStep raw l).heading_line = raw.heading_line := by
  unfold extractStep
  repeat' split
  all_goals exact ⟨rfl, rfl, rfl⟩

theorem extract_fields_keeps_title (bl : List Line) (raw : RawBlock) :
    (extract_fields bl raw).title = raw.title ∧
    (extract_fields bl raw).heading_level = raw.heading_level ∧
    (extract_fields bl raw).heading_line = raw.heading_line := by
  induction bl generalizing raw with
  | nil => exact ⟨rfl, rfl, rfl⟩
  | cons l t ih =>
    have hs := extractStep_keeps_title raw l
    have ht := ih (extractStep raw l)
    exact ⟨ht.1.trans hs.1, ht.2.1.trans hs.2.1, ht.2.2.trans hs.2.2⟩

/-- C6 counterexample: a document with one heading and two Command
lines resolving to it yields TWO blocks (and two parsed tasks) with the
same `heading_line`, not one. -/
theorem duplicate_commands_counterexample :
    (find_task_blocks docTwoCommands).length = 2 ∧
    (find_task_blocks docTwoCommands).map (fun b => b.heading_line) = [0, 0] ∧
    (parse_lines docTwoCommands none).length = 2 ∧
    (parse_lines docTwoCommands none).map (fun t => t.heading_line) = [0, 0] := by
  decide

/-- C6 (amended): the locator emits one candidate block per Command
line; Command lines resolving to the same nearest heading produce
*equal* blocks (the whole loop body depends on the command line only
through that heading), so duplicates are identical rather than
folded. -/
theorem same_heading_same_block (lines : List Line) (c1 c2 : Nat)
    (h : nearestHeadingAbove (headingsOf lines) c1 =
      nearestHeadingAbove (headingsOf lines) c2) :
    blockForCommand lines (headingsOf lines) c1 =
      blockForCommand lines (headingsOf lines) c2 := by
  unfold blockForCommand
  rw [h]

/-- Witness for the amended C6: the two Command lines of the duplicate
document produce the same block. -/
theorem same_heading_same_block_witness :
    blockForCommand docTwoCommands (headingsOf docTwoCommands) 1 =
      blockForCommand docTwoCommands (headingsOf docTwoCommands) 3 :=
  same_heading_same_block docTwoCommands 1 3 (by decide)

/-- C7: when the nearest heading above a Command line has a generic
title (case-insensitively in `_GENERIC_HEADINGS`) and a heading with
strictly lower level exists above it, the kept block carries the
parent heading's title, level and line. -/
theorem generic_subheading_resolution (lines : List Line) (cmd : Nat)
    (h_line h_level : Nat) (h_title : Line) (p_line p_level : Nat) (p_title : Line)
    (raw : RawBlock)
    (hn : nearestHeadingAbove (headingsOf lines) cmd = some (h_line, h_level, h_title))
    (hg : toLowerL (trim h_title) ∈ genericHeadings)
    (hp : parentHeadingAbove (headingsOf lines) h_line h_level =
      some (p_line, p_level, p_title))
    (hb : blockForCommand lines (headingsOf lines) cmd = some raw) :
    raw.title = p_title ∧ raw.heading_level = p_level ∧ raw.heading_line = p_line := by
  unfold blockForCommand at hb
  rw [hn] at hb
  dsimp only at hb
  rw [if_pos hg, hp] at hb
  dsimp only at hb
  split at hb
  · injection hb with hb'
    subst hb'
    refine ⟨(extract_fields_keeps_title _ _).1, (extract_fields_keeps_title _ _).2.1,
      (extract_fields_keeps_title _ _).2.2⟩
  · exact absurd hb (by simp)

/-- Witness for C7: `#### Task Definition` under `## Backup Docs`
resolves the kept block's title to "Backup Docs". -/
theorem generic_subheading_resolution_witness :
    (blockForCommand docGeneric (headingsOf docGeneric) 2).map (fun b => b.title) =
      some (lineOf "Backup Docs") := by
  cases hb : blockForCommand docGeneric (headingsOf docGeneric) 2 with
  | none => exact absurd hb (by decide)
  | some raw =>
    have h := generic_subheading_resolution docGeneric 2 1 4 (lineOf "Task Definition")
      0 2 (lineOf "Backup Docs") raw (by decide) (by decide) (by decide) hb
    simp [h.1]

/-- C8: a candidate block is kept exactly when both a Command and a
Schedule were extracted from its resolved line range (the loop body
equals the extraction followed by the truthiness test), and
`_block_to_task` likewise yields a task exactly when both fields are
present — so Command-without-Schedule blocks and heading ranges
without a Command contribute no task. -/
theorem block_filtering (lines : List Line) (cmd : Nat) (h_line h_level r_line r_level : Nat)
    (h_title r_title : Line)
    (hn : nearestHeadingAbove (headingsOf lines) cmd = some (h_line, h_level, h_title))
    (hres : (if toLowerL (trim h_title) ∈ genericHeadings then
        match parentHeadingAbove (headingsOf lines) h_line h_level with
        | some p => p
        | none => (h_line, h_level, h_title)
      else (h_line, h_level, h_title)) = (r_line, r_level, r_title)) :
    blockForCommand lines (headingsOf lines) cmd =
      (let raw := extract_fields
          ((lines.take (blockEndOf (headingsOf lines) lines.length r_line r_level)).drop
            r_line)
          { title := r_title, heading_level := r_level, heading_line := r_line }
       if truthy raw.command && truthy raw.schedule then some raw else none) ∧
    (∀ (block : RawBlock) (fp : Option Line),
      (block_to_task block fp).isSome = (truthy block.command && truthy block.schedule)) := by
  constructor
  · unfold blockForCommand
    rw [hn]
    dsimp only
    rw [hres]
  · intro block fp
    unfold block_to_task
    cases h : truthy block.command && truthy block.schedule <;> simp [h]

/-- Witness for C8: a Command-without-Schedule block is dropped, and
`block_to_task` on it yields no task. -/
theorem block_filtering_witness :
    blockForCommand docNoSchedule (headingsOf docNoSchedule) 1 = none ∧
    (block_to_task
        { title := lineOf "A", heading_level := 1, heading_line := 0,
          command := some (lineOf "x") }
        none).isSome = false := by
  have h := block_filtering docNoSchedule 1 0 1 0 1 (lineOf "A") (lineOf "A")
    (by decide) (by decide)
  constructor
  · rw [h.1]
    decide
  · rw [h.2]
    decide

/-! ## C10 — `update_task_state` without a target file is a no-op -/

/-- C10: `update_task_state` on a task whose `file_path` is `None`, or
whose file does not exist, returns normally without writing or creating
any file: the file-system state is completely unchanged. -/
theorem update_task_state_missing_file_noop (fs : FileSystem) (task : Task)
    (result : ExecutionResult) (next_run : Option DateTime) (report_name : Option Line)
    (h : task.file_path = none ∨ ∃ p, task.file_path = some p ∧ fsRead fs p = none) :
    update_task_state fs task result next_run report_name = fs := by
  rcases h with h | ⟨p, hp, hr⟩
  · simp [update_task_state, h]
  · simp [update_task_state, hp, hr]

/-- Witness for C10: a concrete file system, a task without a path and
a task whose path is absent. -/
theorem update_task_state_missing_file_noop_witness :
    update_task_state [(lineOf "other.md", lineOf "x\n")]
        { sampleTask with file_path := none } sampleResultOk none none =
      [(lineOf "other.md", lineOf "x\n")] ∧
    update_task_state [(lineOf "other.md", lineOf "x\n")] sampleTask sampleResultOk none
        none = [(lineOf "other.md", lineOf "x\n")] :=
  ⟨update_task_state_missing_file_noop _ _ _ _ _ (Or.inl rfl),
   update_task_state_missing_file_noop _ _ _ _ _
     (Or.inr ⟨lineOf "Tasks/My Task.md", rfl, by decide⟩)⟩

/-! ## C9 — the executor never raises -/

/-- C9: `execute_task` maps every subprocess outcome — completion with
any exit code (including 127 for a non-existent command and any other
non-zero code), timeout, or a raising launch — to an `ExecutionResult`
(the totality of this function embodies the never-raise `try`/`except`
structure).  On timeout the synthesized failure has `success = false`,
`timed_out = true` and a populated (non-empty) `error_message`; a
non-zero exit or a raised exception also yield failure results. -/
theorem execute_task_never_raises (task_id command : Line) (timeout : ℚ)
    (parameters : Option (List (Line × Line))) (started_at finished_at : DateTime)
    (elapsed : ℚ) (outcome : Line → SubprocessOutcome) :
    (outcome (prepare_command command parameters) = .timedOut →
      (execute_task task_id command timeout parameters started_at finished_at elapsed
          outcome).success = false ∧
      (execute_task task_id command timeout parameters started_at finished_at elapsed
          outcome).timed_out = true ∧
      ∃ m, (execute_task task_id command timeout parameters started_at finished_at elapsed
          outcome).error_message = some m ∧ m ≠ []) ∧
    (∀ rc out err, outcome (prepare_command command parameters) = .completed rc out err →
      ((execute_task task_id command timeout parameters started_at finished_at elapsed
          outcome).success = true ↔ rc = 0)) ∧
    (∀ msg, outcome (prepare_command command parameters) = .raised msg →
      (execute_task task_id command timeout parameters started_at finished_at elapsed
          outcome).success = false ∧
      (execute_task task_id command timeout parameters started_at finished_at elapsed
          outcome).timed_out = false ∧
      (execute_task task_id command timeout parameters started_at finished_at elapsed
          outcome).error_message = some msg) := by
  refine ⟨fun h => ?_, fun rc out err h => ?_, fun msg h => ?_⟩
  · refine ⟨by simp [execute_task, h], by simp [execute_task, h],
      lineOf "Command timed out after " ++ fixed1 timeout ++ ['s'], by simp [execute_task, h],
      ?_⟩
    simp [lineOf]
  · simp [execute_task, h]
  · simp [execute_task, h]

/-! ## C3 — statistics conservation -/

/-- C3: from a task satisfying `total_runs = successful_runs +
failed_runs`, after any sequence of execute+update cycles (each cycle
applying the counter update of `update_task_state`) the invariant still
holds, and `last_failure` is the `started_at` of the most recent
failing run, or stays unchanged when no run in the sequence failed. -/
theorem stats_conservation (t0 : Task) (rs : List ExecutionResult)
    (h : t0.total_runs = t0.successful_runs + t0.failed_runs) :
    (rs.foldl apply_stats t0).total_runs =
        (rs.foldl apply_stats t0).successful_runs +
          (rs.foldl apply_stats t0).failed_runs ∧
    (rs.foldl apply_stats t0).last_failure =
      (match rs.reverse.find? (fun r => !r.success) with
       | some r => some r.started_at
       | none => t0.last_failure) := by
  induction rs generalizing t0 with
  | nil => exact ⟨h, rfl⟩
  | cons r rs ih =>
    have h1 : (apply_stats t0 r).total_runs =
        (apply_stats t0 r).successful_runs + (apply_stats t0 r).failed_runs := by
      cases hs : r.success <;> simp [apply_stats, hs] <;> omega
    obtain ⟨ha, hb⟩ := ih (apply_stats t0 r) h1
    refine ⟨by simpa using ha, ?_⟩
    rw [List.foldl_cons, hb, List.reverse_cons, List.find?_append]
    cases hf : rs.reverse.find? (fun r => !r.success) with
    | some r' => simp [Option.or]
    | none =>
      cases hs : r.success <;> simp [apply_stats, hs, Option.or]

/-- Witness for C3: one success then one failure, starting from a
consistent sample task. -/
theorem stats_conservation_witness :
    (([sampleResultOk, sampleResultFail].foldl apply_stats sampleTask).total_runs =
        ([sampleResultOk, sampleResultFail].foldl apply_stats sampleTask).successful_runs +
          ([sampleResultOk, sampleResultFail].foldl apply_stats sampleTask).failed_runs) ∧
    ([sampleResultOk, sampleResultFail].foldl apply_stats sampleTask).last_failure =
      some sampleResultFail.started_at := by
  have h := stats_conservation sampleTask [sampleResultOk, sampleResultFail] (by decide)
  exact ⟨h.1, by rw [h.2]; decide⟩

/-- Witness for C9: a command whose subprocess times out. -/
theorem execute_task_never_raises_witness :
    (execute_task (lineOf "t") (lineOf "sleep 999") 300 none sampleDT sampleDT 300
      (fun _ => .timedOut)).success = false ∧
    (execute_task (lineOf "t") (lineOf "sleep 999") 300 none sampleDT sampleDT 300
      (fun _ => .timedOut)).timed_out = true := by
  have h := (execute_task_never_raises (lineOf "t") (lineOf "sleep 999") 300 none sampleDT
    sampleDT 300 (fun _ => .timedOut)).1 rfl
  exact ⟨h.1, h.2.1⟩

theorem splitOnNl_cons_nl (X : List Char) : splitOnNl ('\n' :: X) = [] :: splitOnNl X :=
  rfl

theorem splitOnNl_cons_of {d : Char} {X : List Char} {h0 : Line} {t0 : List Line}
    (hd : ¬d = '\n') (hX : splitOnNl X = h0 :: t0) :
    splitOnNl (d :: X) = (d :: h0) :: t0 := by
  unfold splitOnNl at hX ⊢
  rw [List.foldr_cons, hX]
  dsimp only
  rw [if_neg hd]

theorem splitOnNl_ne_nil (c : List Char) : splitOnNl c ≠ [] := by
  induction c with
  | nil => exact List.cons_ne_nil _ _
  | cons d t ih =>
    rcases hsp : splitOnNl t with - | ⟨h0, t0⟩
    · exact absurd hsp ih
    · by_cases hd : d = '\n'
      · rw [hd, splitOnNl_cons_nl, hsp]
        exact List.cons_ne_nil _ _
      · rw [splitOnNl_cons_of hd hsp]
        exact List.cons_ne_nil _ _

end ObsTasks
